import Mathlib

set_option linter.unnecessarySeqFocus false

/-!
# Verification of the reflector-native packet classification / reflection engine

A shallow embedding, in Lean 4, of the packet codec, classifier, reflect
kernels, worker statistics flow, and AF_XDP buffer accounting of the
`reflector-native` repository.  Packet buffers are modelled as byte
functions `Nat → Nat` (a byte store), exactly mirroring the offsets and
byte operations of `src/dataplane/common/packet.c`,
`src/dataplane/common/core.c` and
`src/dataplane/linux_xdp/xdp_platform.c`.
-/

namespace Reflector

/-- A packet buffer: an unbounded byte store, indexed from the start of the
Ethernet frame.  C code addresses bytes of a buffer that extends past the
frame length, so the store is total. -/
def Buf : Type := Nat → Nat

/-- All stored values are bytes. -/
def ByteBuf (f : Buf) : Prop := ∀ i, f i < 256

/-- Read `n` consecutive bytes starting at `off` (a `memcpy` out of the buffer). -/
def readBytes (f : Buf) (off n : Nat) : List Nat :=
  (List.range n).map fun i => f (off + i)

/-- Write the list `l` at offset `off` (a `memcpy` into the buffer). -/
def writeBytes (f : Buf) (off : Nat) (l : List Nat) : Buf :=
  fun i => if off ≤ i ∧ i < off + l.length then l.getD (i - off) 0 else f i

/-- Swap two `n`-byte blocks at offsets `a` and `b`, via a temporary copy:
`temp = data[a..]; data[a..] = data[b..]; data[b..] = temp` — the shape of
every scalar swap in `packet.c`. -/
def swapBlocks (f : Buf) (a b n : Nat) : Buf :=
  let temp := readBytes f a n
  let f1 := writeBytes f a (readBytes f b n)
  writeBytes f1 b temp

theorem readBytes_length (f : Buf) (off n : Nat) : (readBytes f off n).length = n := by
  simp [readBytes]

theorem readBytes_getD (f : Buf) (off n k : Nat) (hk : k < n) :
    (readBytes f off n).getD k 0 = f (off + k) := by
  simp [readBytes, List.getD, List.getElem?_map, List.getElem?_range, hk]

theorem writeBytes_apply (f : Buf) (off : Nat) (l : List Nat) (i : Nat) :
    writeBytes f off l i =
      if off ≤ i ∧ i < off + l.length then l.getD (i - off) 0 else f i := rfl

/-- Pointwise description of `swapBlocks` for disjoint blocks (`a + n ≤ b`). -/
theorem swapBlocks_apply (f : Buf) (a b n : Nat) (hab : a + n ≤ b) (i : Nat) :
    swapBlocks f a b n i =
      if a ≤ i ∧ i < a + n then f (b + (i - a))
      else if b ≤ i ∧ i < b + n then f (a + (i - b))
      else f i := by
  unfold swapBlocks
  simp only [writeBytes_apply, readBytes_length]
  rcases Nat.lt_or_ge i (a + n) with h1 | h1
  · rcases le_or_lt a i with h2 | h2
    · simp only [if_pos (And.intro h2 h1)]
      rw [if_neg (by omega), readBytes_getD f b n (i - a) (by omega)]
    · have hx : ¬ (a ≤ i ∧ i < a + n) := by omega
      rw [if_neg (by omega), if_neg hx, if_neg (by omega), if_neg (by omega)]
  · rcases le_or_lt b i with h2 | h2
    · rcases Nat.lt_or_ge i (b + n) with h3 | h3
      · rw [if_pos (And.intro h2 h3), readBytes_getD f a n (i - b) (by omega),
          if_neg (by omega), if_pos (And.intro h2 h3)]
      · rw [if_neg (by omega), if_neg (by omega), if_neg (by omega), if_neg (by omega)]
    · rw [if_neg (by omega), if_neg (by omega), if_neg (by omega), if_neg (by omega)]

/-- Swapping disjoint blocks twice restores the buffer. -/
theorem swapBlocks_involutive (f : Buf) (a b n : Nat) (hab : a + n ≤ b) :
    swapBlocks (swapBlocks f a b n) a b n = f := by
  funext i
  rw [swapBlocks_apply _ _ _ _ hab]
  split
  · next h =>
    rw [swapBlocks_apply _ _ _ _ hab, if_neg (by omega), if_pos (by omega)]
    congr 1; omega
  · next h =>
    split
    · next h2 =>
      rw [swapBlocks_apply _ _ _ _ hab, if_pos (by omega)]
      congr 1; omega
    · next h2 =>
      rw [swapBlocks_apply _ _ _ _ hab, if_neg (by omega), if_neg (by omega)]

/-- `swapBlocks` does not touch bytes outside the two blocks. -/
theorem swapBlocks_apply_out (f : Buf) (a b n : Nat) (hab : a + n ≤ b) (i : Nat)
    (hi : ¬ (a ≤ i ∧ i < a + n) ∧ ¬ (b ≤ i ∧ i < b + n)) :
    swapBlocks f a b n i = f i := by
  rw [swapBlocks_apply _ _ _ _ hab, if_neg hi.1, if_neg hi.2]

theorem writeBytes_apply_out (f : Buf) (off : Nat) (l : List Nat) (i : Nat)
    (hi : ¬ (off ≤ i ∧ i < off + l.length)) : writeBytes f off l i = f i := by
  rw [writeBytes_apply, if_neg hi]

/-- Two disjoint-block swaps commute (stated for ordered ranges, which is
how every pair of swaps in `packet.c` is laid out). -/
theorem swapBlocks_comm (f : Buf) (a b n a' b' n' : Nat)
    (hab : a + n ≤ b) (hab' : a' + n' ≤ b') (hord : b + n ≤ a') :
    swapBlocks (swapBlocks f a b n) a' b' n' =
      swapBlocks (swapBlocks f a' b' n') a b n := by
  funext i
  simp only [swapBlocks_apply _ _ _ _ hab, swapBlocks_apply _ _ _ _ hab']
  split_ifs <;> first | rfl | omega

/-- A disjoint-block swap commutes with a byte write that lies entirely
before or after the swapped region. -/
theorem swapBlocks_writeBytes_comm (f : Buf) (off : Nat) (l : List Nat)
    (a b n : Nat) (hab : a + n ≤ b)
    (hd : b + n ≤ off ∨ off + l.length ≤ a) :
    swapBlocks (writeBytes f off l) a b n =
      writeBytes (swapBlocks f a b n) off l := by
  funext i
  simp only [swapBlocks_apply _ _ _ _ hab, writeBytes_apply]
  split_ifs <;> first | rfl | omega

/-- Writes to disjoint ranges commute. -/
theorem writeBytes_comm (f : Buf) (o1 o2 : Nat) (l1 l2 : List Nat)
    (hd : o1 + l1.length ≤ o2 ∨ o2 + l2.length ≤ o1) :
    writeBytes (writeBytes f o1 l1) o2 l2 =
      writeBytes (writeBytes f o2 l2) o1 l1 := by
  funext i
  simp only [writeBytes_apply]
  split_ifs <;> first | rfl | omega

/-- A second write at the same offset with the same width overwrites the first. -/
theorem writeBytes_writeBytes (f : Buf) (off : Nat) (l1 l2 : List Nat)
    (hl : l1.length = l2.length) :
    writeBytes (writeBytes f off l1) off l2 = writeBytes f off l2 := by
  funext i
  simp only [writeBytes_apply]
  split
  · rfl
  · next h => rw [if_neg (by omega)]

/-- Writing bytes that are already there is a no-op. -/
theorem writeBytes_self (f : Buf) (off : Nat) (l : List Nat)
    (h : ∀ k, k < l.length → l.getD k 0 = f (off + k)) :
    writeBytes f off l = f := by
  funext i
  rw [writeBytes_apply]
  split
  · next hi =>
    rw [h (i - off) (by omega)]
    congr 1
    omega
  · rfl

/-- A 16-bit big-endian (network order) word read, as done by
`ntohs(*(uint16_t*)p)` on the wire bytes. -/
def word16be (f : Buf) (off : Nat) : Nat := f off * 256 + f (off + 1)

/-- Fuel-driven body of the internet-checksum carry fold.  Each loop step
strictly decreases the sum, so fuel `s` always suffices for input `s`
(`fold16_eq` below recovers the exact `while (sum >> 16)` loop). -/
def fold16Aux : Nat → Nat → Nat
  | 0, s => s
  | fuel + 1, s => if s < 65536 then s else fold16Aux fuel (s % 65536 + s / 65536)

/-- The internet-checksum carry fold: `while (sum >> 16) sum = (sum & 0xFFFF) +
(sum >> 16);` from `packet.c`. -/
def fold16 (s : Nat) : Nat := fold16Aux s s

theorem fold16Aux_step (fuel s : Nat) (h : s ≤ fuel) :
    fold16Aux (fuel + 1) s = fold16Aux fuel s := by
  induction fuel using Nat.strong_induction_on generalizing s with
  | _ fuel ih =>
    show (if s < 65536 then s else fold16Aux fuel (s % 65536 + s / 65536)) = _
    split
    · next hlt =>
      cases fuel with
      | zero =>
        have hz : s = 0 := by omega
        simp [fold16Aux, hz]
      | succ k => simp [fold16Aux, hlt]
    · next hge =>
      cases fuel with
      | zero => omega
      | succ k =>
        have hstep : fold16Aux (k + 1) s = fold16Aux k (s % 65536 + s / 65536) := by
          simp only [fold16Aux]
          rw [if_neg hge]
        rw [hstep]
        exact ih k (by omega) _ (by omega)

theorem fold16Aux_add (d fuel s : Nat) (h : s ≤ fuel) :
    fold16Aux (fuel + d) s = fold16Aux fuel s := by
  induction d with
  | zero => rfl
  | succ n ihn =>
    rw [show fuel + (n + 1) = (fuel + n) + 1 by omega,
      fold16Aux_step _ _ (by omega), ihn]

theorem fold16Aux_sufficient (fuel fuel' s : Nat) (h : s ≤ fuel) (h' : s ≤ fuel') :
    fold16Aux fuel s = fold16Aux fuel' s := by
  rcases le_total fuel fuel' with hl | hl
  · rw [show fuel' = fuel + (fuel' - fuel) by omega, fold16Aux_add _ _ _ h]
  · rw [show fuel = fuel' + (fuel - fuel') by omega, fold16Aux_add _ _ _ h']

/-- `fold16` satisfies the loop equation of the C code. -/
theorem fold16_eq (s : Nat) :
    fold16 s = if s < 65536 then s else fold16 (s % 65536 + s / 65536) := by
  unfold fold16
  split
  · next h =>
    cases s with
    | zero => rfl
    | succ n => simp [fold16Aux, h]
  · next h =>
    cases s with
    | zero => omega
    | succ n =>
      show fold16Aux (n + 1) (n + 1) = _
      have hstep : fold16Aux (n + 1) (n + 1) =
          fold16Aux n ((n + 1) % 65536 + (n + 1) / 65536) := by
        simp only [fold16Aux]
        rw [if_neg h]
      rw [hstep]
      exact fold16Aux_sufficient n _ _ (by omega) (by omega)

theorem fold16_lt (s : Nat) : fold16 s < 65536 := by
  induction s using Nat.strong_induction_on with
  | _ s ih =>
    rw [fold16_eq]
    split
    · assumption
    · next h => exact ih _ (by omega)

/-- `calculate_ip_checksum` (packet.c:435): one's-complement sum of the
16-bit words of the IP header at `off`, skipping word 5 (the checksum
field), folded and complemented; the result is the host-order 16-bit
value whose network-order bytes get stored. -/
def calculate_ip_checksum (f : Buf) (off n : Nat) : Nat :=
  let sum := ((List.range (n / 2)).map fun i =>
    if i = 5 then 0 else word16be f (off + 2 * i)).sum
  65535 - fold16 sum

/-- `calculate_udp_checksum` (packet.c:462): IPv4 pseudo-header plus UDP
header and data, skipping word 3 (the UDP checksum field); a zero result
is replaced by 0xFFFF. -/
def calculate_udp_checksum (f : Buf) (ipOff udpOff udpLen : Nat) : Nat :=
  let pseudo := word16be f (ipOff + 12) + word16be f (ipOff + 14) +
    word16be f (ipOff + 16) + word16be f (ipOff + 18) + 17 + udpLen
  let dataSum := ((List.range (udpLen / 2)).map fun i =>
    if i = 3 then 0 else word16be f (udpOff + 2 * i)).sum
  let oddSum := if udpLen % 2 = 1 then f (udpOff + udpLen - 1) * 256 else 0
  let v := 65535 - fold16 (pseudo + dataSum + oddSum)
  if v = 0 then 65535 else v

/-- `calculate_udp6_checksum` (packet.c:960): IPv6 pseudo-header (source,
destination, upper-layer length, next-header 17) plus UDP words, skipping
the checksum word; zero maps to 0xFFFF. -/
def calculate_udp6_checksum (f : Buf) (ip6Off udpOff udpLen : Nat) : Nat :=
  let srcSum := ((List.range 8).map fun i => word16be f (ip6Off + 8 + 2 * i)).sum
  let dstSum := ((List.range 8).map fun i => word16be f (ip6Off + 24 + 2 * i)).sum
  let lenSum := udpLen / 65536 % 65536 + udpLen % 65536
  let dataSum := ((List.range (udpLen / 2)).map fun i =>
    if i = 3 then 0 else word16be f (udpOff + 2 * i)).sum
  let oddSum := if udpLen % 2 = 1 then f (udpOff + udpLen - 1) * 256 else 0
  let v := 65535 - fold16 (srcSum + dstSum + lenSum + 17 + dataSum + oddSum)
  if v = 0 then 65535 else v

/-- Clear the IPv4 header checksum field (bytes 24–25), recompute it over
the header at offset 14, and store it in network order — the
`*ip_check = 0; *ip_check = calculate_ip_checksum(iph, ihl)` sequence. -/
def write_ip_checksum (f : Buf) (ipl : Nat) : Buf :=
  let f0 := writeBytes f 24 [0, 0]
  let c := calculate_ip_checksum f0 14 ipl
  writeBytes f0 24 [c / 256, c % 256]

/-- Clear the UDP checksum field, recompute over pseudo-header + datagram,
store in network order (IPv4 path, IP header at offset 14). -/
def write_udp_checksum (f : Buf) (udpOff udpLen : Nat) : Buf :=
  let f0 := writeBytes f (udpOff + 6) [0, 0]
  let c := calculate_udp_checksum f0 14 udpOff udpLen
  writeBytes f0 (udpOff + 6) [c / 256, c % 256]

/-- Clear the UDP checksum field, recompute with the IPv6 pseudo-header,
store in network order. -/
def write_udp6_checksum (f : Buf) (ip6Off udpOff udpLen : Nat) : Buf :=
  let f0 := writeBytes f (udpOff + 6) [0, 0]
  let c := calculate_udp6_checksum f0 ip6Off udpOff udpLen
  writeBytes f0 (udpOff + 6) [c / 256, c % 256]

/-- The IPv4 header checksum value stored by the software path (field
cleared before summation, as the C does; the sum skips word 5 anyway). -/
def ip_cksum_val (f : Buf) (ipl : Nat) : Nat :=
  calculate_ip_checksum (writeBytes f 24 [0, 0]) 14 ipl

/-- The UDP checksum value stored by the software IPv4 path (field cleared
before summation). -/
def udp_cksum_val (f : Buf) (udpOff udpLen : Nat) : Nat :=
  calculate_udp_checksum (writeBytes f (udpOff + 6) [0, 0]) 14 udpOff udpLen

theorem write_ip_checksum_eq (f : Buf) (ipl : Nat) :
    write_ip_checksum f ipl =
      writeBytes f 24 [ip_cksum_val f ipl / 256, ip_cksum_val f ipl % 256] := by
  unfold write_ip_checksum ip_cksum_val
  exact writeBytes_writeBytes f 24 _ _ rfl

theorem write_udp_checksum_eq (f : Buf) (udpOff udpLen : Nat) :
    write_udp_checksum f udpOff udpLen =
      writeBytes f (udpOff + 6)
        [udp_cksum_val f udpOff udpLen / 256, udp_cksum_val f udpOff udpLen % 256] := by
  unfold write_udp_checksum udp_cksum_val
  exact writeBytes_writeBytes f (udpOff + 6) _ _ rfl

theorem calculate_ip_checksum_congr (f g : Buf) (off n : Nat)
    (h : ∀ j, j < n → f (off + j) = g (off + j)) :
    calculate_ip_checksum f off n = calculate_ip_checksum g off n := by
  unfold calculate_ip_checksum
  have hmap : (List.range (n / 2)).map
      (fun i => if i = 5 then 0 else word16be f (off + 2 * i)) =
      (List.range (n / 2)).map
      (fun i => if i = 5 then 0 else word16be g (off + 2 * i)) := by
    refine List.map_congr_left fun i hi => ?_
    rw [List.mem_range] at hi
    split
    · rfl
    · unfold word16be
      rw [h (2 * i) (by omega), show off + 2 * i + 1 = off + (2 * i + 1) by omega,
        h (2 * i + 1) (by omega)]
  rw [hmap]

theorem calculate_udp_checksum_congr (f g : Buf) (ipOff udpOff udpLen : Nat)
    (hip : ∀ j, j < 8 → f (ipOff + 12 + j) = g (ipOff + 12 + j))
    (hudp : ∀ j, j < udpLen → f (udpOff + j) = g (udpOff + j)) :
    calculate_udp_checksum f ipOff udpOff udpLen =
      calculate_udp_checksum g ipOff udpOff udpLen := by
  unfold calculate_udp_checksum
  have hw : ∀ k, k < 7 → word16be f (ipOff + 12 + k) = word16be g (ipOff + 12 + k) := by
    intro k hk
    unfold word16be
    rw [hip k (by omega), show ipOff + 12 + k + 1 = ipOff + 12 + (k + 1) by omega,
      hip (k + 1) (by omega)]
  have hmap : (List.range (udpLen / 2)).map
      (fun i => if i = 3 then 0 else word16be f (udpOff + 2 * i)) =
      (List.range (udpLen / 2)).map
      (fun i => if i = 3 then 0 else word16be g (udpOff + 2 * i)) := by
    refine List.map_congr_left fun i hi => ?_
    rw [List.mem_range] at hi
    split
    · rfl
    · unfold word16be
      rw [hudp (2 * i) (by omega), show udpOff + 2 * i + 1 = udpOff + (2 * i + 1) by omega,
        hudp (2 * i + 1) (by omega)]
  have hps : word16be f (ipOff + 12) = word16be g (ipOff + 12) := by
    have := hw 0 (by omega)
    simpa using this
  have hps2 := hw 2 (by omega)
  have hps4 := hw 4 (by omega)
  have hps6 := hw 6 (by omega)
  have hodd : (if udpLen % 2 = 1 then f (udpOff + udpLen - 1) * 256 else 0) =
      (if udpLen % 2 = 1 then g (udpOff + udpLen - 1) * 256 else 0) := by
    split
    · next ho =>
      rw [show udpOff + udpLen - 1 = udpOff + (udpLen - 1) by omega,
        hudp (udpLen - 1) (by omega)]
    · rfl
  rw [hmap, hodd,
    show ipOff + 14 = ipOff + 12 + 2 by omega,
    show ipOff + 16 = ipOff + 12 + 4 by omega,
    show ipOff + 18 = ipOff + 12 + 6 by omega,
    hps, hps2, hps4, hps6]

/-- `ip_cksum_val` only reads header bytes outside the checksum field. -/
theorem ip_cksum_val_congr (f g : Buf) (ipl : Nat)
    (h : ∀ j, j < ipl → j ≠ 10 → j ≠ 11 → f (14 + j) = g (14 + j)) :
    ip_cksum_val f ipl = ip_cksum_val g ipl := by
  unfold ip_cksum_val
  refine calculate_ip_checksum_congr _ _ 14 ipl fun j hj => ?_
  by_cases hj10 : j = 10 ∨ j = 11
  · simp only [writeBytes_apply]
    rcases hj10 with h' | h' <;> subst h' <;> norm_num
  · push_neg at hj10
    rw [writeBytes_apply_out _ _ _ _ (by simp; omega),
      writeBytes_apply_out _ _ _ _ (by simp; omega),
      h j hj hj10.1 hj10.2]

/-- `udp_cksum_val` only reads the pseudo-header bytes and the datagram
bytes outside the checksum field (for `34 ≤ udpOff`). -/
theorem udp_cksum_val_congr (f g : Buf) (udpOff udpLen : Nat) (hu : 34 ≤ udpOff)
    (hip : ∀ j, j < 8 → f (26 + j) = g (26 + j))
    (hudp : ∀ j, j < udpLen → j ≠ 6 → j ≠ 7 → f (udpOff + j) = g (udpOff + j)) :
    udp_cksum_val f udpOff udpLen = udp_cksum_val g udpOff udpLen := by
  unfold udp_cksum_val
  refine calculate_udp_checksum_congr _ _ 14 udpOff udpLen
    (fun j hj => ?_) (fun j hj => ?_)
  · rw [writeBytes_apply_out _ _ _ _ (by simp; omega),
      writeBytes_apply_out _ _ _ _ (by simp; omega)]
    have := hip j hj
    simpa [show (14 : Nat) + 12 + j = 26 + j by omega] using this
  · by_cases hj67 : j = 6 ∨ j = 7
    · simp only [writeBytes_apply]
      rcases hj67 with h' | h' <;> subst h' <;> norm_num
    · push_neg at hj67
      rw [writeBytes_apply_out _ _ _ _ (by simp; omega),
        writeBytes_apply_out _ _ _ _ (by simp; omega),
        hudp j hj hj67.1 hj67.2]

/-- `reflect_mode_t` (reflector.h:158). -/
inductive ReflectMode
  | mac
  | macIp
  | all
deriving DecidableEq, Repr

/-- `reflect_packet_with_mode` (packet.c:596): mode-dependent in-place
header swap with optional software checksum recomputation.  The IHL is
read from byte 14 after the MAC swap, exactly as the C does. -/
def reflect_packet_with_mode (f : Buf) (len : Nat) (mode : ReflectMode)
    (sc : Bool) : Buf :=
  if len < 14 then f else
  let f1 := swapBlocks f 0 6 6
  if mode = ReflectMode.mac then f1 else
  if len < 14 + 20 then f1 else
  let ihl := f1 14 % 16
  let ipl := ihl * 4
  if ipl < 20 ∨ len < 14 + ipl then f1 else
  let f2 := swapBlocks f1 26 30 4
  if mode = ReflectMode.macIp then
    (if sc then write_ip_checksum f2 ipl else f2)
  else
  if len < 14 + ipl + 8 then f2 else
  let udpOff := 14 + ipl
  let f3 := swapBlocks f2 udpOff (udpOff + 2) 2
  if sc ∧ 42 ≤ len then
    let f4 := write_ip_checksum f3 ipl
    let udpLen := word16be f4 (udpOff + 4)
    if 14 + ipl + udpLen ≤ len then write_udp_checksum f4 udpOff udpLen else f4
  else f3

/-- `reflect_packet_inplace_scalar` (packet.c:393): unconditional MAC, IP
and UDP-port swaps; the UDP offset uses the IHL read after the MAC swap. -/
def reflect_packet_inplace_scalar (f : Buf) : Buf :=
  let f1 := swapBlocks f 0 6 6
  let ihl := f1 14 % 16
  let udpOff := 14 + ihl * 4
  let f2 := swapBlocks f1 26 30 4
  swapBlocks f2 udpOff (udpOff + 2) 2

/-- The byte-shuffle map used by both SSE2 `_mm_shuffle_epi8` and NEON
`vqtbl1q_u8` on the first 16 bytes: source MAC, destination MAC,
EtherType and the 2 following bytes kept. -/
def ethShuffleIdx : List Nat := [6, 7, 8, 9, 10, 11, 0, 1, 2, 3, 4, 5, 12, 13, 14, 15]

/-- The SSE2 shuffle on the 16 bytes at the IPv4 source address: the two
4-byte addresses exchanged, bytes 8–15 kept. -/
def ipShuffleIdx : List Nat := [4, 5, 6, 7, 0, 1, 2, 3, 8, 9, 10, 11, 12, 13, 14, 15]

/-- A 16-byte load + byte shuffle + store at `off`. -/
def shuffle16 (f : Buf) (off : Nat) (idx : List Nat) : Buf :=
  let blk := readBytes f off 16
  writeBytes f off ((List.range 16).map fun i => blk.getD (idx.getD i 0) 0)

/-- The 32-bit little-endian load of both UDP ports, rotate by 16, store
(`*ports = (port_pair >> 16) | (port_pair << 16)`), shared by the SSE2
and NEON variants. -/
def rotatePorts32 (f : Buf) (udpOff : Nat) : Buf :=
  let v := f udpOff + f (udpOff + 1) * 256 + f (udpOff + 2) * 65536 +
    f (udpOff + 3) * 16777216
  let r := (v / 65536 + v * 65536) % 4294967296
  writeBytes f udpOff [r % 256, r / 256 % 256, r / 65536 % 256, r / 16777216 % 256]

/-- `reflect_packet_inplace_simd` (packet.c:236), the SSE2 variant:
Ethernet-header shuffle, IP-address shuffle, 32-bit port rotate. -/
def reflect_packet_inplace_simd (f : Buf) : Buf :=
  let f1 := shuffle16 f 0 ethShuffleIdx
  let ihl := f1 14 % 16
  let udpOff := 14 + ihl * 4
  let f2 := shuffle16 f1 26 ipShuffleIdx
  rotatePorts32 f2 udpOff

/-- `reflect_packet_inplace_neon` (packet.c:318), the NEON variant:
Ethernet-header shuffle, `vrev64_u32` swap of the two 4-byte addresses at
offset 26, 32-bit port rotate. -/
def reflect_packet_inplace_neon (f : Buf) : Buf :=
  let f1 := shuffle16 f 0 ethShuffleIdx
  let ihl := f1 14 % 16
  let udpOff := 14 + ihl * 4
  let f2 := writeBytes f1 26 (readBytes f1 30 4 ++ readBytes f1 26 4)
  rotatePorts32 f2 udpOff

/-- `reflect_packet_inplace` (packet.c:517): runtime dispatch between the
SSE2, NEON and scalar kernels; all three produce the same bytes
(`reflect_variants_agree` below), so the embedding uses the scalar one. -/
def reflect_packet_inplace (f : Buf) : Buf := reflect_packet_inplace_scalar f

/-- `reflect_packet_with_checksum` (packet.c:559): the full (MAC+IP+UDP)
swap, then optional software checksum recomputation. -/
def reflect_packet_with_checksum (f : Buf) (len : Nat) (sc : Bool) : Buf :=
  let f1 := reflect_packet_inplace f
  if sc ∧ 42 ≤ len then
    let ihl := f1 14 % 16 * 4
    if 20 ≤ ihl ∧ 14 + ihl + 8 ≤ len then
      let f2 := write_ip_checksum f1 ihl
      let udpOff := 14 + ihl
      let udpLen := word16be f2 (udpOff + 4)
      if 14 + ihl + udpLen ≤ len then write_udp_checksum f2 udpOff udpLen else f2
    else f1
  else f1

/-- `reflect_packet_ipv6` (packet.c:1024): VLAN-aware IPv6 reflection.
The VLAN probe reads bytes 12–13 before any length check, as the C does. -/
def reflect_packet_ipv6 (f : Buf) (len : Nat) (mode : ReflectMode)
    (sc : Bool) : Buf :=
  let outer := word16be f 12
  let ipOff := if outer = 0x8100 ∨ outer = 0x88A8 then 18 else 14
  if len < ipOff + 40 then f else
  let f1 := swapBlocks f 0 6 6
  if mode = ReflectMode.mac then f1 else
  let f2 := swapBlocks f1 (ipOff + 8) (ipOff + 24) 16
  if mode = ReflectMode.macIp then f2 else
  let udpOff := ipOff + 40
  if len < udpOff + 8 then f2 else
  let f3 := swapBlocks f2 udpOff (udpOff + 2) 2
  if sc then
    let udpLen := word16be f3 (udpOff + 4)
    if udpOff + udpLen ≤ len then write_udp6_checksum f3 ipOff udpOff udpLen else f3
  else f3

/- ======================================================================
   Classification
   ====================================================================== -/

/-- The five 7-byte signatures (reflector.h:77–85), as ASCII bytes. -/
def ITO_SIG_PROBEOT : List Nat := [80, 82, 79, 66, 69, 79, 84]

/-- `"DATA:OT"`. -/
def ITO_SIG_DATAOT : List Nat := [68, 65, 84, 65, 58, 79, 84]

/-- `"LATENCY"`. -/
def ITO_SIG_LATENCY : List Nat := [76, 65, 84, 69, 78, 67, 89]

/-- `"RFC2544"`. -/
def CUSTOM_SIG_RFC2544 : List Nat := [82, 70, 67, 50, 53, 52, 52]

/-- `"Y.1564 "` (trailing space pads to 7 bytes). -/
def CUSTOM_SIG_Y1564 : List Nat := [89, 46, 49, 53, 54, 52, 32]

/-- `reflector_config_t` (reflector.h:265) restricted to the fields the
verified code paths read.  `sig_filter` is kept as the raw enum integer
(`SIG_FILTER_ALL = 0 … SIG_FILTER_CUSTOM = 4`). -/
structure RConfig where
  mac : List Nat
  ito_port : Nat
  filter_oui : Bool
  oui : List Nat
  sig_filter : Nat
  reflect_mode : ReflectMode
  software_checksum : Bool
  enable_ipv6 : Bool
  enable_vlan : Bool
  measure_latency : Bool
  batch_size : Nat
  frame_size : Nat
  num_frames : Nat
deriving DecidableEq, Repr

/-- The configuration fields `is_ito_packet` dereferences through its
`config` pointer. -/
structure ClassifyView where
  mac : List Nat
  filter_oui : Bool
  oui : List Nat
  ito_port : Nat
  sig_filter : Nat
deriving DecidableEq, Repr

/-- The view of a well-typed `reflector_config_t *` argument. -/
def RConfig.view (c : RConfig) : ClassifyView :=
  ⟨c.mac, c.filter_oui, c.oui, c.ito_port, c.sig_filter⟩

/-- `is_ito_packet` (packet.c:81): the IPv4 fast-path classifier, checks
in source order — length, destination MAC, optional OUI, EtherType,
version/IHL, protocol, optional destination port, signature length, then
the signature-filter match chain. -/
def is_ito_packet (f : Buf) (len : Nat) (cfg : ClassifyView) : Bool :=
  if len < 54 then false
  else if readBytes f 0 6 ≠ cfg.mac then false
  else if cfg.filter_oui ∧ (f 6 ≠ cfg.oui.getD 0 0 ∨ f 7 ≠ cfg.oui.getD 1 0 ∨
      f 8 ≠ cfg.oui.getD 2 0) then false
  else if word16be f 12 ≠ 0x0800 then false
  else if f 14 / 16 ≠ 4 ∨ f 14 % 16 < 5 then false
  else if f 23 ≠ 17 then false
  else if cfg.ito_port ≠ 0 ∧ word16be f (14 + f 14 % 16 * 4 + 2) ≠ cfg.ito_port then
    false
  else if len < 14 + f 14 % 16 * 4 + 8 + 5 + 7 then false
  else if (cfg.sig_filter = 0 ∨ cfg.sig_filter = 1) ∧
      (readBytes f (14 + f 14 % 16 * 4 + 8 + 5) 7 = ITO_SIG_PROBEOT ∨
       readBytes f (14 + f 14 % 16 * 4 + 8 + 5) 7 = ITO_SIG_DATAOT ∨
       readBytes f (14 + f 14 % 16 * 4 + 8 + 5) 7 = ITO_SIG_LATENCY) then true
  else if (cfg.sig_filter = 0 ∨ cfg.sig_filter = 4 ∨ cfg.sig_filter = 2) ∧
      readBytes f (14 + f 14 % 16 * 4 + 8 + 5) 7 = CUSTOM_SIG_RFC2544 then true
  else if (cfg.sig_filter = 0 ∨ cfg.sig_filter = 4 ∨ cfg.sig_filter = 3) ∧
      readBytes f (14 + f 14 % 16 * 4 + 8 + 5) 7 = CUSTOM_SIG_Y1564 then true
  else false

/-- Transport-layer tail of `is_ito_packet_extended` (packet.c:1192–1230):
protocol, signature-length, optional port, then the filter-independent
signature chain.  Result: `(accept, is_ipv6, is_vlan)`. -/
def ito_ext_transport (f : Buf) (len : Nat) (cfg : RConfig) (ipOff ipHdrLen
    ipProto : Nat) (isIpv6 isVlan : Bool) : Bool × Bool × Bool :=
  if ipProto ≠ 17 then (false, isIpv6, isVlan)
  else if len < ipOff + ipHdrLen + 8 + 5 + 7 then (false, isIpv6, isVlan)
  else if cfg.ito_port ≠ 0 ∧ word16be f (ipOff + ipHdrLen + 2) ≠ cfg.ito_port then
    (false, isIpv6, isVlan)
  else if readBytes f (ipOff + ipHdrLen + 8 + 5) 7 = ITO_SIG_PROBEOT ∨
      readBytes f (ipOff + ipHdrLen + 8 + 5) 7 = ITO_SIG_DATAOT ∨
      readBytes f (ipOff + ipHdrLen + 8 + 5) 7 = ITO_SIG_LATENCY then
    (true, isIpv6, isVlan)
  else if readBytes f (ipOff + ipHdrLen + 8 + 5) 7 = CUSTOM_SIG_RFC2544 ∨
      readBytes f (ipOff + ipHdrLen + 8 + 5) 7 = CUSTOM_SIG_Y1564 then
    (true, isIpv6, isVlan)
  else (false, isIpv6, isVlan)

/-- Network-layer part of `is_ito_packet_extended` (packet.c:1153–1190):
IPv4 or (when enabled) IPv6 after the EtherType/VLAN resolution. -/
def ito_ext_after_eth (f : Buf) (len : Nat) (cfg : RConfig)
    (ethertype ipOff : Nat) (isVlan : Bool) : Bool × Bool × Bool :=
  if ethertype = 0x0800 then
    if len < ipOff + 20 then (false, false, isVlan)
    else if f ipOff / 16 ≠ 4 ∨ f ipOff % 16 < 5 then (false, false, isVlan)
    else ito_ext_transport f len cfg ipOff (f ipOff % 16 * 4) (f (ipOff + 9))
      false isVlan
  else if ethertype = 0x86DD then
    if ¬ cfg.enable_ipv6 then (false, false, isVlan)
    else if len < ipOff + 40 then (false, false, isVlan)
    else ito_ext_transport f len cfg ipOff 40 (f (ipOff + 6)) true isVlan
  else (false, false, isVlan)

/-- `is_ito_packet_extended` (packet.c:1106): the VLAN/IPv6-capable
classifier.  Returns `(accept, is_ipv6, is_vlan)`; note the signature
chain at its end never consults `cfg.sig_filter`. -/
def is_ito_packet_extended (f : Buf) (len : Nat) (cfg : RConfig) :
    Bool × Bool × Bool :=
  if len < 54 then (false, false, false)
  else if readBytes f 0 6 ≠ cfg.mac then (false, false, false)
  else if cfg.filter_oui ∧ (f 6 ≠ cfg.oui.getD 0 0 ∨ f 7 ≠ cfg.oui.getD 1 0 ∨
      f 8 ≠ cfg.oui.getD 2 0) then (false, false, false)
  else if word16be f 12 = 0x8100 ∨ word16be f 12 = 0x88A8 then
    if ¬ cfg.enable_vlan then (false, false, false)
    else if len < 14 + 4 + 20 then (false, false, false)
    else ito_ext_after_eth f len cfg (word16be f 16) 18 true
  else ito_ext_after_eth f len cfg (word16be f 12) 14 false

/-- `get_ito_signature_type` (packet.c:704), with `sig_type_t` as its
enum integer (`SIG_TYPE_PROBEOT = 0 … SIG_TYPE_UNKNOWN = 5`). -/
def get_ito_signature_type (f : Buf) (len : Nat) : Nat :=
  if len < 14 + f 14 % 16 * 4 + 8 + 5 + 7 then 5
  else if readBytes f (14 + f 14 % 16 * 4 + 8 + 5) 7 = ITO_SIG_PROBEOT then 0
  else if readBytes f (14 + f 14 % 16 * 4 + 8 + 5) 7 = ITO_SIG_DATAOT then 1
  else if readBytes f (14 + f 14 % 16 * 4 + 8 + 5) 7 = ITO_SIG_LATENCY then 2
  else if readBytes f (14 + f 14 % 16 * 4 + 8 + 5) 7 = CUSTOM_SIG_RFC2544 then 3
  else if readBytes f (14 + f 14 % 16 * 4 + 8 + 5) 7 = CUSTOM_SIG_Y1564 then 4
  else 5

/- ======================================================================
   Reflection round-trip lemmas
   ====================================================================== -/

theorem sM_out (g : Buf) (i : Nat) (hi : 12 ≤ i) : swapBlocks g 0 6 6 i = g i :=
  swapBlocks_apply_out g 0 6 6 (by omega) i (by omega)

theorem sI_out (g : Buf) (i : Nat) (hi : i < 26 ∨ 34 ≤ i) :
    swapBlocks g 26 30 4 i = g i :=
  swapBlocks_apply_out g 26 30 4 (by omega) i (by omega)

theorem sP_out (g : Buf) (u i : Nat) (hi : i < u ∨ u + 4 ≤ i) :
    swapBlocks g u (u + 2) 2 i = g i :=
  swapBlocks_apply_out g u (u + 2) 2 (by omega) i (by omega)

/-- `is_ito_packet`-style validity of the stored IPv4 header checksum:
the field holds exactly the value the software path would recompute. -/
def ip_checksum_ok (f : Buf) : Prop :=
  f 24 = ip_cksum_val f (f 14 % 16 * 4) / 256 ∧
  f 25 = ip_cksum_val f (f 14 % 16 * 4) % 256

/-- Validity of the stored UDP checksum against the software recomputation. -/
def udp_checksum_ok (f : Buf) : Prop :=
  let u := 14 + f 14 % 16 * 4
  let ul := word16be f (u + 4)
  f (u + 6) = udp_cksum_val f u ul / 256 ∧
  f (u + 7) = udp_cksum_val f u ul % 256

theorem reflect_mac_double (f : Buf) (len : Nat) (sc : Bool) :
    reflect_packet_with_mode (reflect_packet_with_mode f len ReflectMode.mac sc)
      len ReflectMode.mac sc = f := by
  by_cases h14 : len < 14
  · simp only [reflect_packet_with_mode, if_pos h14]
  · have e1 : ∀ g : Buf,
        reflect_packet_with_mode g len ReflectMode.mac sc = swapBlocks g 0 6 6 := by
      intro g
      simp only [reflect_packet_with_mode, if_neg h14, eq_self_iff_true, if_true]
    rw [e1, e1, swapBlocks_involutive _ _ _ _ (by omega)]

theorem reflect_macip_double (f : Buf) (len : Nat) (sc : Bool)
    (hip : sc = true → ip_checksum_ok f) :
    reflect_packet_with_mode (reflect_packet_with_mode f len ReflectMode.macIp sc)
      len ReflectMode.macIp sc = f := by
  have hmac : (ReflectMode.macIp = ReflectMode.mac) = False := by
    simp
  by_cases h14 : len < 14
  · simp only [reflect_packet_with_mode, if_pos h14]
  · by_cases h34 : len < 14 + 20
    · have e1 : ∀ g : Buf,
          reflect_packet_with_mode g len ReflectMode.macIp sc = swapBlocks g 0 6 6 := by
        intro g
        simp only [reflect_packet_with_mode, if_neg h14, hmac, if_false, if_pos h34]
      rw [e1, e1, swapBlocks_involutive _ _ _ _ (by omega)]
    · by_cases hipg : f 14 % 16 * 4 < 20 ∨ len < 14 + f 14 % 16 * 4
      · have e1 : ∀ g : Buf, g 14 = f 14 →
            reflect_packet_with_mode g len ReflectMode.macIp sc = swapBlocks g 0 6 6 := by
          intro g hg
          simp only [reflect_packet_with_mode, if_neg h14, hmac, if_false, if_neg h34,
            sM_out g 14 (by omega), hg, if_pos hipg]
        rw [e1 f rfl, e1 _ (sM_out f 14 (by omega)),
          swapBlocks_involutive _ _ _ _ (by omega)]
      · -- full MAC+IP path
        have e1 : ∀ g : Buf, g 14 = f 14 →
            reflect_packet_with_mode g len ReflectMode.macIp sc =
              (if sc then
                write_ip_checksum (swapBlocks (swapBlocks g 0 6 6) 26 30 4)
                  (f 14 % 16 * 4)
               else swapBlocks (swapBlocks g 0 6 6) 26 30 4) := by
          intro g hg
          simp only [reflect_packet_with_mode, if_neg h14, hmac, if_false, if_neg h34,
            sM_out g 14 (by omega), hg, if_neg hipg, eq_self_iff_true, if_true]
        have hswap : ∀ g : Buf,
            swapBlocks (swapBlocks (swapBlocks (swapBlocks g 0 6 6) 26 30 4) 0 6 6)
              26 30 4 = g := by
          intro g
          rw [← swapBlocks_comm (swapBlocks g 0 6 6) 0 6 6 26 30 4 (by omega) (by omega)
              (by omega),
            swapBlocks_involutive g 0 6 6 (by omega),
            swapBlocks_involutive _ 26 30 4 (by omega)]
        cases sc with
        | false =>
          rw [e1 f rfl]
          simp only [Bool.false_eq_true, if_false]
          rw [e1 _ (by rw [sI_out _ 14 (by omega), sM_out _ 14 (by omega)])]
          simp only [Bool.false_eq_true, if_false]
          exact hswap f
        | true =>
          obtain ⟨hv24, hv25⟩ := hip rfl
          rw [e1 f rfl]
          simp only [eq_self_iff_true, if_true]
          rw [write_ip_checksum_eq (swapBlocks (swapBlocks f 0 6 6) 26 30 4)
            (f 14 % 16 * 4)]
          have h14g : writeBytes (swapBlocks (swapBlocks f 0 6 6) 26 30 4) 24
              [ip_cksum_val (swapBlocks (swapBlocks f 0 6 6) 26 30 4) (f 14 % 16 * 4) / 256,
               ip_cksum_val (swapBlocks (swapBlocks f 0 6 6) 26 30 4) (f 14 % 16 * 4) % 256]
              14 = f 14 := by
            rw [writeBytes_apply_out _ _ _ _
                (by simp only [List.length_cons, List.length_nil]; omega),
              sI_out _ 14 (by omega), sM_out _ 14 (by omega)]
          rw [e1 _ h14g]
          simp only [eq_self_iff_true, if_true]
          -- push the two swaps of the second pass through the write
          rw [swapBlocks_writeBytes_comm _ 24 _ 0 6 6 (by omega)
              (by simp only [List.length_cons, List.length_nil]; omega),
            swapBlocks_writeBytes_comm _ 24 _ 26 30 4 (by omega)
              (by simp only [List.length_cons, List.length_nil]; omega),
            hswap f]
          -- now collapse the repeated checksum write
          rw [write_ip_checksum_eq, ip_cksum_val_congr
              (writeBytes f 24 _) f (f 14 % 16 * 4) (fun j hj hj1 hj2 => by
                rw [writeBytes_apply_out _ _ _ _
                  (by simp only [List.length_cons, List.length_nil]; omega)]),
            writeBytes_writeBytes _ _ _ _ (by
              simp only [List.length_cons, List.length_nil])]
          exact writeBytes_self f 24 _ (by
            intro k hk
            simp only [List.length_cons, List.length_nil] at hk
            interval_cases k
            · simpa using hv24.symm
            · simpa using hv25.symm)

/-- The MAC, IP and UDP-port swaps of one full reflection cancel against a
second application (the three swaps act on pairwise disjoint regions). -/
theorem sixSwap (g : Buf) (u : Nat) (hu : 34 ≤ u) :
    swapBlocks (swapBlocks (swapBlocks (swapBlocks (swapBlocks
      (swapBlocks g 0 6 6) 26 30 4) u (u + 2) 2) 0 6 6) 26 30 4) u (u + 2) 2 = g := by
  rw [← swapBlocks_comm (swapBlocks (swapBlocks g 0 6 6) 26 30 4) 0 6 6 u (u + 2) 2
      (by omega) (by omega) (by omega),
    ← swapBlocks_comm (swapBlocks g 0 6 6) 0 6 6 26 30 4 (by omega) (by omega) (by omega),
    swapBlocks_involutive g 0 6 6 (by omega),
    ← swapBlocks_comm (swapBlocks g 26 30 4) 26 30 4 u (u + 2) 2
      (by omega) (by omega) (by omega),
    swapBlocks_involutive _ 26 30 4 (by omega),
    swapBlocks_involutive _ u (u + 2) 2 (by omega)]

/-- The UDP length field (bytes `u+4`, `u+5`) survives one full reflection
with IP-checksum rewrite. -/
theorem word_after_wip (g : Buf) (u ipl : Nat) (hu : 34 ≤ u) :
    word16be (write_ip_checksum (swapBlocks (swapBlocks (swapBlocks g 0 6 6) 26 30 4)
      u (u + 2) 2) ipl) (u + 4) = word16be g (u + 4) := by
  rw [write_ip_checksum_eq]
  unfold word16be
  rw [writeBytes_apply_out _ _ _ _ (by simp only [List.length_cons, List.length_nil]; omega),
    writeBytes_apply_out _ _ _ _ (by simp only [List.length_cons, List.length_nil]; omega),
    sP_out _ _ _ (by omega), sP_out _ _ _ (by omega),
    sI_out _ _ (by omega), sI_out _ _ (by omega),
    sM_out _ _ (by omega), sM_out _ _ (by omega)]

/-- Byte 14 survives one full reflection with IP-checksum rewrite. -/
theorem b14_after_wip (g : Buf) (u ipl : Nat) (hu : 34 ≤ u) :
    write_ip_checksum (swapBlocks (swapBlocks (swapBlocks g 0 6 6) 26 30 4)
      u (u + 2) 2) ipl 14 = g 14 := by
  rw [write_ip_checksum_eq,
    writeBytes_apply_out _ _ _ _ (by simp only [List.length_cons, List.length_nil]; omega),
    sP_out _ _ _ (by omega), sI_out _ _ (by omega), sM_out _ _ (by omega)]

theorem reflect_all_double (f : Buf) (len : Nat) (sc : Bool)
    (hip : sc = true → ip_checksum_ok f)
    (hudp : sc = true → udp_checksum_ok f) :
    reflect_packet_with_mode (reflect_packet_with_mode f len ReflectMode.all sc)
      len ReflectMode.all sc = f := by
  have hmac : (ReflectMode.all = ReflectMode.mac) = False := by simp
  have hmip : (ReflectMode.all = ReflectMode.macIp) = False := by simp
  by_cases h14 : len < 14
  · simp only [reflect_packet_with_mode, if_pos h14]
  · by_cases h34 : len < 14 + 20
    · have e1 : ∀ g : Buf,
          reflect_packet_with_mode g len ReflectMode.all sc = swapBlocks g 0 6 6 := by
        intro g
        simp only [reflect_packet_with_mode, if_neg h14, hmac, if_false, if_pos h34]
      rw [e1, e1, swapBlocks_involutive _ _ _ _ (by omega)]
    · by_cases hipg : f 14 % 16 * 4 < 20 ∨ len < 14 + f 14 % 16 * 4
      · have e1 : ∀ g : Buf, g 14 = f 14 →
            reflect_packet_with_mode g len ReflectMode.all sc = swapBlocks g 0 6 6 := by
          intro g hg
          simp only [reflect_packet_with_mode, if_neg h14, hmac, if_false, if_neg h34,
            sM_out g 14 (by omega), hg, if_pos hipg]
        rw [e1 f rfl, e1 _ (sM_out f 14 (by omega)),
          swapBlocks_involutive _ _ _ _ (by omega)]
      · have hu : 34 ≤ 14 + f 14 % 16 * 4 := by omega
        by_cases hudp8 : len < 14 + f 14 % 16 * 4 + 8
        · have e1 : ∀ g : Buf, g 14 = f 14 →
              reflect_packet_with_mode g len ReflectMode.all sc =
                swapBlocks (swapBlocks g 0 6 6) 26 30 4 := by
            intro g hg
            simp only [reflect_packet_with_mode, if_neg h14, hmac, if_false, hmip,
              if_false, if_neg h34, sM_out g 14 (by omega), hg, if_neg hipg,
              if_pos hudp8]
          rw [e1 f rfl, e1 _ (by rw [sI_out _ 14 (by omega), sM_out _ 14 (by omega)]),
            ← swapBlocks_comm (swapBlocks f 0 6 6) 0 6 6 26 30 4 (by omega) (by omega)
              (by omega),
            swapBlocks_involutive f 0 6 6 (by omega),
            swapBlocks_involutive _ 26 30 4 (by omega)]
        · have h42 : 42 ≤ len := by omega
          cases sc with
          | false =>
            have e1 : ∀ g : Buf, g 14 = f 14 →
                reflect_packet_with_mode g len ReflectMode.all false =
                  swapBlocks (swapBlocks (swapBlocks g 0 6 6) 26 30 4)
                    (14 + f 14 % 16 * 4) (14 + f 14 % 16 * 4 + 2) 2 := by
              intro g hg
              simp only [reflect_packet_with_mode, if_neg h14, hmac, if_false, hmip,
                if_false, if_neg h34, sM_out g 14 (by omega), hg, if_neg hipg,
                if_neg hudp8, Bool.false_eq_true, false_and, if_false]
            rw [e1 f rfl, e1 _ (by
              rw [sP_out _ _ 14 (by omega), sI_out _ 14 (by omega),
                sM_out _ 14 (by omega)]),
              sixSwap f _ hu]
          | true =>
            obtain ⟨hv24, hv25⟩ := hip rfl
            obtain ⟨hw6, hw7⟩ := hudp rfl
            have e1 : ∀ g : Buf, g 14 = f 14 →
                word16be g (14 + f 14 % 16 * 4 + 4) =
                  word16be f (14 + f 14 % 16 * 4 + 4) →
                reflect_packet_with_mode g len ReflectMode.all true =
                  (if 14 + f 14 % 16 * 4 + word16be f (14 + f 14 % 16 * 4 + 4) ≤ len
                   then
                     write_udp_checksum
                       (write_ip_checksum (swapBlocks (swapBlocks (swapBlocks g 0 6 6)
                         26 30 4) (14 + f 14 % 16 * 4) (14 + f 14 % 16 * 4 + 2) 2)
                         (f 14 % 16 * 4))
                       (14 + f 14 % 16 * 4) (word16be f (14 + f 14 % 16 * 4 + 4))
                   else
                     write_ip_checksum (swapBlocks (swapBlocks (swapBlocks g 0 6 6)
                       26 30 4) (14 + f 14 % 16 * 4) (14 + f 14 % 16 * 4 + 2) 2)
                       (f 14 % 16 * 4)) := by
              intro g hg hg45
              simp only [reflect_packet_with_mode, if_neg h14, hmac, if_false, hmip,
                if_false, if_neg h34, sM_out g 14 (by omega), hg, if_neg hipg,
                if_neg hudp8, eq_self_iff_true, true_and, if_pos h42,
                word_after_wip g (14 + f 14 % 16 * 4) (f 14 % 16 * 4) hu, hg45]
            rw [e1 f rfl rfl]
            by_cases hg5 : 14 + f 14 % 16 * 4 + word16be f (14 + f 14 % 16 * 4 + 4) ≤ len
            · rw [if_pos hg5]
              rw [write_udp_checksum_eq, write_ip_checksum_eq]
              rw [e1 _
                (by
                  rw [writeBytes_apply_out _ _ _ _
                      (by simp only [List.length_cons, List.length_nil]; omega),
                    writeBytes_apply_out _ _ _ _
                      (by simp only [List.length_cons, List.length_nil]; omega),
                    sP_out _ _ 14 (by omega), sI_out _ 14 (by omega),
                    sM_out _ 14 (by omega)])
                (by
                  unfold word16be
                  rw [writeBytes_apply_out _ _ _ _
                      (by simp only [List.length_cons, List.length_nil]; omega),
                    writeBytes_apply_out _ _ _ _
                      (by simp only [List.length_cons, List.length_nil]; omega),
                    writeBytes_apply_out _ _ _ _
                      (by simp only [List.length_cons, List.length_nil]; omega),
                    writeBytes_apply_out _ _ _ _
                      (by simp only [List.length_cons, List.length_nil]; omega),
                    sP_out _ _ _ (by omega), sP_out _ _ _ (by omega),
                    sI_out _ _ (by omega), sI_out _ _ (by omega),
                    sM_out _ _ (by omega), sM_out _ _ (by omega)])]
              rw [if_pos hg5]
              -- push the second-pass swaps through the two first-pass writes
              rw [swapBlocks_writeBytes_comm _ _ _ 0 6 6 (by omega)
                  (by simp only [List.length_cons, List.length_nil]; omega),
                swapBlocks_writeBytes_comm _ _ _ 0 6 6 (by omega)
                  (by simp only [List.length_cons, List.length_nil]; omega),
                swapBlocks_writeBytes_comm _ _ _ 26 30 4 (by omega)
                  (by simp only [List.length_cons, List.length_nil]; omega),
                swapBlocks_writeBytes_comm _ _ _ 26 30 4 (by omega)
                  (by simp only [List.length_cons, List.length_nil]; omega),
                swapBlocks_writeBytes_comm _ _ _ (14 + f 14 % 16 * 4)
                  (14 + f 14 % 16 * 4 + 2) 2 (by omega)
                  (by simp only [List.length_cons, List.length_nil]; omega),
                swapBlocks_writeBytes_comm _ _ _ (14 + f 14 % 16 * 4)
                  (14 + f 14 % 16 * 4 + 2) 2 (by omega)
                  (by simp only [List.length_cons, List.length_nil]; omega),
                sixSwap f _ hu]
              -- collapse the second-pass IP-checksum write into the first
              rw [write_ip_checksum_eq]
              rw [writeBytes_comm _ _ _ _ _ (Or.inr (by
                  simp only [List.length_cons, List.length_nil]; omega)),
                writeBytes_writeBytes _ _ _ _ (by
                  simp only [List.length_cons, List.length_nil])]
              rw [ip_cksum_val_congr _ f (f 14 % 16 * 4) (fun j hj hj1 hj2 => by
                rw [writeBytes_apply_out _ _ _ _
                    (by simp only [List.length_cons, List.length_nil]; omega),
                  writeBytes_apply_out _ _ _ _
                    (by simp only [List.length_cons, List.length_nil]; omega)])]
              rw [show writeBytes f 24
                  [ip_cksum_val f (f 14 % 16 * 4) / 256,
                   ip_cksum_val f (f 14 % 16 * 4) % 256] = f from
                writeBytes_self f 24 _ (by
                  intro k hk
                  simp only [List.length_cons, List.length_nil] at hk
                  interval_cases k
                  · simpa using hv24.symm
                  · simpa using hv25.symm)]
              -- collapse the second-pass UDP-checksum write
              rw [write_udp_checksum_eq,
                writeBytes_writeBytes _ _ _ _ (by
                  simp only [List.length_cons, List.length_nil]),
                udp_cksum_val_congr _ f (14 + f 14 % 16 * 4) _ hu
                  (fun j hj => by
                    rw [writeBytes_apply_out _ _ _ _
                      (by simp only [List.length_cons, List.length_nil]; omega)])
                  (fun j hj hj6 hj7 => by
                    rw [writeBytes_apply_out _ _ _ _
                      (by simp only [List.length_cons, List.length_nil]; omega)])]
              exact writeBytes_self f _ _ (by
                intro k hk
                simp only [List.length_cons, List.length_nil] at hk
                interval_cases k
                · simpa using hw6.symm
                · simpa using hw7.symm)
            · rw [if_neg hg5]
              rw [write_ip_checksum_eq]
              rw [e1 _
                (by
                  rw [writeBytes_apply_out _ _ _ _
                      (by simp only [List.length_cons, List.length_nil]; omega),
                    sP_out _ _ 14 (by omega), sI_out _ 14 (by omega),
                    sM_out _ 14 (by omega)])
                (by
                  unfold word16be
                  rw [writeBytes_apply_out _ _ _ _
                      (by simp only [List.length_cons, List.length_nil]; omega),
                    writeBytes_apply_out _ _ _ _
                      (by simp only [List.length_cons, List.length_nil]; omega),
                    sP_out _ _ _ (by omega), sP_out _ _ _ (by omega),
                    sI_out _ _ (by omega), sI_out _ _ (by omega),
                    sM_out _ _ (by omega), sM_out _ _ (by omega)])]
              rw [if_neg hg5]
              rw [swapBlocks_writeBytes_comm _ _ _ 0 6 6 (by omega)
                  (by simp only [List.length_cons, List.length_nil]; omega),
                swapBlocks_writeBytes_comm _ _ _ 26 30 4 (by omega)
                  (by simp only [List.length_cons, List.length_nil]; omega),
                swapBlocks_writeBytes_comm _ _ _ (14 + f 14 % 16 * 4)
                  (14 + f 14 % 16 * 4 + 2) 2 (by omega)
                  (by simp only [List.length_cons, List.length_nil]; omega),
                sixSwap f _ hu]
              rw [write_ip_checksum_eq,
                writeBytes_writeBytes _ _ _ _ (by
                  simp only [List.length_cons, List.length_nil]),
                ip_cksum_val_congr _ f (f 14 % 16 * 4) (fun j hj hj1 hj2 => by
                  rw [writeBytes_apply_out _ _ _ _
                    (by simp only [List.length_cons, List.length_nil]; omega)])]
              exact writeBytes_self f 24 _ (by
                intro k hk
                simp only [List.length_cons, List.length_nil] at hk
                interval_cases k
                · simpa using hv24.symm
                · simpa using hv25.symm)

/- ======================================================================
   SIMD / NEON / scalar kernel agreement
   ====================================================================== -/

theorem range_map_getD (n k : Nat) (g : Nat → Nat) (hk : k < n) :
    ((List.range n).map g).getD k 0 = g k := by
  simp [List.getD, List.getElem?_map, List.getElem?_range, hk]

theorem shuffle16_apply (f : Buf) (off : Nat) (idx : List Nat) (i : Nat)
    (hidx : ∀ k, k < 16 → idx.getD k 0 < 16) :
    shuffle16 f off idx i =
      if off ≤ i ∧ i < off + 16 then f (off + idx.getD (i - off) 0) else f i := by
  unfold shuffle16
  rw [writeBytes_apply]
  simp only [List.length_map, List.length_range]
  split
  · next h =>
    rw [range_map_getD 16 (i - off) _ (by omega),
      readBytes_getD f off 16 _ (hidx (i - off) (by omega))]
  · rfl

/-- The SSE2/NEON Ethernet-header shuffle is exactly the scalar MAC swap. -/
theorem ethShuffle_eq (f : Buf) : shuffle16 f 0 ethShuffleIdx = swapBlocks f 0 6 6 := by
  funext i
  rw [shuffle16_apply f 0 ethShuffleIdx i (by decide),
    swapBlocks_apply f 0 6 6 (by omega) i]
  rcases Nat.lt_or_ge i 16 with h16 | h16
  · interval_cases i <;> simp [ethShuffleIdx]
  · rw [if_neg (by omega), if_neg (by omega), if_neg (by omega)]

/-- The SSE2 IP-address shuffle is exactly the scalar IP-address swap. -/
theorem ipShuffle_eq (f : Buf) : shuffle16 f 26 ipShuffleIdx = swapBlocks f 26 30 4 := by
  funext i
  rw [shuffle16_apply f 26 ipShuffleIdx i (by decide),
    swapBlocks_apply f 26 30 4 (by omega) i]
  rcases Nat.lt_or_ge i 42 with h42 | h42
  · rcases Nat.lt_or_ge i 26 with h26 | h26
    · rw [if_neg (by omega), if_neg (by omega), if_neg (by omega)]
    · interval_cases i <;> simp [ipShuffleIdx]
  · rw [if_neg (by omega), if_neg (by omega), if_neg (by omega)]

/-- The NEON `vrev64_u32` lane swap is exactly the scalar IP-address swap. -/
theorem neonIp_eq (f : Buf) :
    writeBytes f 26 (readBytes f 30 4 ++ readBytes f 26 4) = swapBlocks f 26 30 4 := by
  funext i
  rw [writeBytes_apply, swapBlocks_apply f 26 30 4 (by omega) i]
  simp only [List.length_append, readBytes_length]
  rcases Nat.lt_or_ge i 26 with h26 | h26
  · rw [if_neg (by omega), if_neg (by omega), if_neg (by omega)]
  · rcases Nat.lt_or_ge i 30 with h30 | h30
    · rw [if_pos (by omega), if_pos (by omega),
        List.getD_append _ _ _ _ (by rw [readBytes_length]; omega),
        readBytes_getD f 30 4 (i - 26) (by omega)]
    · rcases Nat.lt_or_ge i 34 with h34 | h34
      · rw [if_pos (by omega), if_neg (by omega), if_pos (by omega),
          List.getD_append_right _ _ _ _ (by rw [readBytes_length]; omega),
          readBytes_length, readBytes_getD f 26 4 (i - 26 - 4) (by omega),
          show 26 + (i - 26 - 4) = 26 + (i - 30) by omega]
      · rw [if_neg (by omega), if_neg (by omega), if_neg (by omega)]

/-- The 32-bit port rotate is exactly the scalar two-byte port swap, on
byte-valued buffers. -/
theorem rotatePorts_eq (f : Buf) (u : Nat) (hb : ∀ k, k < 4 → f (u + k) < 256) :
    rotatePorts32 f u = swapBlocks f u (u + 2) 2 := by
  have h0 := hb 0 (by omega)
  have h1 := hb 1 (by omega)
  have h2 := hb 2 (by omega)
  have h3 := hb 3 (by omega)
  simp only [Nat.add_zero] at h0
  have hv1 : (f u + f (u + 1) * 256 + f (u + 2) * 65536 + f (u + 3) * 16777216) / 65536 =
      f (u + 2) + f (u + 3) * 256 := by omega
  have hsplit : f (u + 2) + f (u + 3) * 256 +
      (f u + f (u + 1) * 256 + f (u + 2) * 65536 + f (u + 3) * 16777216) * 65536 =
      (f (u + 2) + f (u + 3) * 256 + f u * 65536 + f (u + 1) * 16777216) +
        (f (u + 2) + f (u + 3) * 256) * 4294967296 := by omega
  have hr : ((f u + f (u + 1) * 256 + f (u + 2) * 65536 + f (u + 3) * 16777216) / 65536 +
      (f u + f (u + 1) * 256 + f (u + 2) * 65536 + f (u + 3) * 16777216) * 65536) %
        4294967296 =
      f (u + 2) + f (u + 3) * 256 + f u * 65536 + f (u + 1) * 16777216 := by
    rw [hv1, hsplit, Nat.add_mul_mod_self_right]
    exact Nat.mod_eq_of_lt (by omega)
  simp only [rotatePorts32, hr]
  have e0 : (f (u + 2) + f (u + 3) * 256 + f u * 65536 + f (u + 1) * 16777216) % 256 =
      f (u + 2) := by omega
  have e1 : (f (u + 2) + f (u + 3) * 256 + f u * 65536 + f (u + 1) * 16777216) / 256 %
      256 = f (u + 3) := by omega
  have e2 : (f (u + 2) + f (u + 3) * 256 + f u * 65536 + f (u + 1) * 16777216) / 65536 %
      256 = f u := by omega
  have e3 : (f (u + 2) + f (u + 3) * 256 + f u * 65536 + f (u + 1) * 16777216) /
      16777216 % 256 = f (u + 1) := by omega
  rw [e0, e1, e2, e3]
  funext i
  rw [writeBytes_apply, swapBlocks_apply f u (u + 2) 2 (by omega) i]
  simp only [List.length_cons, List.length_nil]
  by_cases hi : u ≤ i ∧ i < u + 4
  · obtain ⟨k, hk, rfl⟩ : ∃ k, k < 4 ∧ i = u + k := ⟨i - u, by omega, by omega⟩
    rw [if_pos (by omega), Nat.add_sub_cancel_left]
    interval_cases k
    · rw [if_pos (by omega)]
      simp
    · rw [if_pos (by omega)]
      simp
    · rw [if_neg (by omega), if_pos (by omega)]
      simp
    · rw [if_neg (by omega), if_pos (by omega)]
      simp
  · rw [if_neg (by omega), if_neg (by omega), if_neg (by omega)]

theorem ByteBuf_swapBlocks (f : Buf) (hb : ByteBuf f) (a b n : Nat) (hab : a + n ≤ b) :
    ByteBuf (swapBlocks f a b n) := by
  intro i
  rw [swapBlocks_apply f a b n hab i]
  split_ifs <;> apply hb

/- ======================================================================
   Concrete frames and configurations for witnesses and counterexamples
   ====================================================================== -/

/-- A buffer backed by a byte list (bytes past the list read as 0). -/
def bufOfList (l : List Nat) : Buf := fun i => l.getD i 0

/-- A minimal 54-byte PROBEOT test frame: destination MAC 01:02:03:04:05:06,
NetAlly source OUI, IPv4/UDP to port 3842, vendor prefix, `PROBEOT`
signature.  The IP and UDP checksum fields are zero. -/
def framePROBEOT : List Nat :=
  [1, 2, 3, 4, 5, 6,
   0, 192, 23, 84, 5, 152,
   8, 0,
   69, 0, 0, 40, 0, 0, 64, 0, 64, 17, 0, 0,
   192, 168, 0, 10, 192, 168, 0, 1,
   15, 2, 15, 2, 0, 20, 0, 0,
   9, 16, 234, 29, 0,
   80, 82, 79, 66, 69, 79, 84]

/-- `framePROBEOT` with correct IPv4 header and UDP checksums filled in. -/
def framePROBEOTck : List Nat :=
  [1, 2, 3, 4, 5, 6,
   0, 192, 23, 84, 5, 152,
   8, 0,
   69, 0, 0, 40, 0, 0, 64, 0, 64, 17, 185, 105,
   192, 168, 0, 10, 192, 168, 0, 1,
   15, 2, 15, 2, 0, 20, 136, 255,
   9, 16, 234, 29, 0,
   80, 82, 79, 66, 69, 79, 84]

/-- A configuration with signature filter ALL, reflection mode ALL. -/
def cfgAll : RConfig :=
  ⟨[1, 2, 3, 4, 5, 6], 3842, true, [0, 192, 23], 0, ReflectMode.all, false,
    true, true, false, 64, 4096, 4096⟩

/-- `cfgAll` with reflection mode MAC-only. -/
def cfgMacOnly : RConfig :=
  ⟨[1, 2, 3, 4, 5, 6], 3842, true, [0, 192, 23], 0, ReflectMode.mac, false,
    true, true, false, 64, 4096, 4096⟩

/-- `cfgAll` with signature filter RFC2544 (`SIG_FILTER_RFC2544 = 2`). -/
def cfgRfc : RConfig :=
  ⟨[1, 2, 3, 4, 5, 6], 3842, true, [0, 192, 23], 2, ReflectMode.all, false,
    true, true, false, 64, 4096, 4096⟩

/- ======================================================================
   Claim theorems: reflection
   ====================================================================== -/

/-- **C7.**  The SSE2 variant, the NEON variant and the scalar variant of
the in-place reflect kernel write byte-identical buffers, on every
byte-valued input buffer (in particular on every frame on which
reflection is defined). -/
theorem C7_simd_variants_agree (f : Buf) (hb : ByteBuf f) :
    reflect_packet_inplace_simd f = reflect_packet_inplace_scalar f ∧
    reflect_packet_inplace_neon f = reflect_packet_inplace_scalar f := by
  have hb2 : ByteBuf (swapBlocks (swapBlocks f 0 6 6) 26 30 4) :=
    ByteBuf_swapBlocks _ (ByteBuf_swapBlocks f hb 0 6 6 (by omega)) 26 30 4 (by omega)
  constructor
  · simp only [reflect_packet_inplace_simd, reflect_packet_inplace_scalar,
      ethShuffle_eq, ipShuffle_eq]
    rw [rotatePorts_eq _ _ (fun k _ => hb2 _)]
  · simp only [reflect_packet_inplace_neon, reflect_packet_inplace_scalar,
      ethShuffle_eq, neonIp_eq]
    rw [rotatePorts_eq _ _ (fun k _ => hb2 _)]

/-- Witness for C7 at the concrete PROBEOT frame. -/
theorem C7_simd_variants_agree_witness :
    reflect_packet_inplace_simd (bufOfList framePROBEOT) =
      reflect_packet_inplace_scalar (bufOfList framePROBEOT) ∧
    reflect_packet_inplace_neon (bufOfList framePROBEOT) =
      reflect_packet_inplace_scalar (bufOfList framePROBEOT) :=
  C7_simd_variants_agree (bufOfList framePROBEOT) (fun i => by
    unfold bufOfList framePROBEOT
    rcases Nat.lt_or_ge i 54 with h | h
    · interval_cases i <;> decide
    · rw [List.getD_eq_default _ _ (by simp; omega)]
      decide)

/-- **C1 (counterexample).**  The PROBEOT frame is accepted by the
classifier, yet two reflections with `software_checksum = true` and mode
ALL do not restore the input bytes: the software pass overwrites the
(zero) IPv4 checksum field with the recomputed value. -/
theorem C1_reflect_involution_cex :
    is_ito_packet (bufOfList framePROBEOT) 54 cfgAll.view = true ∧
    reflect_packet_with_mode
      (reflect_packet_with_mode (bufOfList framePROBEOT) 54 ReflectMode.all true)
      54 ReflectMode.all true ≠ bufOfList framePROBEOT :=
  ⟨by decide, fun h => absurd (congrFun h 24) (by decide)⟩

/-- **C1 (amended).**  Reflecting twice with the same mode and the same
software-checksum flag restores the frame bytes exactly, for MAC-only,
MAC+IP and MAC+IP+UDP modes — unconditionally when the flag is off, and
whenever the frame's stored IP and UDP checksum fields already equal the
software-recomputed values when the flag is on. -/
theorem C1_reflect_involution (f : Buf) (len : Nat) (mode : ReflectMode) (sc : Bool)
    (hip : sc = true → ip_checksum_ok f)
    (hudp : sc = true → udp_checksum_ok f) :
    reflect_packet_with_mode (reflect_packet_with_mode f len mode sc) len mode sc = f := by
  cases mode with
  | mac => exact reflect_mac_double f len sc
  | macIp => exact reflect_macip_double f len sc hip
  | all => exact reflect_all_double f len sc hip hudp

/-- Witness for C1 at the checksum-correct PROBEOT frame, mode ALL,
software checksum on. -/
theorem C1_reflect_involution_witness :
    reflect_packet_with_mode
      (reflect_packet_with_mode (bufOfList framePROBEOTck) 54 ReflectMode.all true)
      54 ReflectMode.all true = bufOfList framePROBEOTck :=
  C1_reflect_involution (bufOfList framePROBEOTck) 54 ReflectMode.all true
    (fun _ => ⟨by decide, by decide⟩) (fun _ => ⟨by decide, by decide⟩)

/-- The first 20 bytes of the PROBEOT frame: long enough for the Ethernet
header but too short for the chosen MAC+IP reflection mode. -/
def frame20 : List Nat := framePROBEOT.take 20

/-- **C6 (counterexample).**  A 20-byte frame is shorter than the 34 bytes
MAC+IP mode requires, yet `reflect_packet_with_mode` swaps its MAC
addresses (byte 0 changes): the frame is not left "completely
unchanged". -/
theorem C6_short_frame_cex :
    reflect_packet_with_mode (bufOfList frame20) 20 ReflectMode.macIp false ≠
      bufOfList frame20 :=
  fun h => absurd (congrFun h 0) (by decide)

/-- **C6 (amended).**  For a frame shorter than the bytes its reflection
mode requires, reflect performs only the swaps of the layers that fully
fit and never touches the bytes of the first incomplete layer: an IPv4
frame shorter than the Ethernet header is wholly untouched; one shorter
than 34 bytes keeps every byte from offset 12 on; one too short for the
UDP header keeps every byte from offset 34 on; an IPv6 frame shorter
than the MAC+IP requirement is wholly untouched, and one too short for
the UDP header keeps every byte of the would-be UDP header region. -/
theorem C6_short_frame_behavior (f : Buf) (len : Nat) (mode : ReflectMode) (sc : Bool) :
    (len < 14 → reflect_packet_with_mode f len mode sc = f) ∧
    (len < 34 → ∀ i, 12 ≤ i → reflect_packet_with_mode f len mode sc i = f i) ∧
    (len < 14 + f 14 % 16 * 4 + 8 → ∀ i, 34 ≤ i →
      reflect_packet_with_mode f len mode sc i = f i) ∧
    (len < (if word16be f 12 = 0x8100 ∨ word16be f 12 = 0x88A8 then 18 else 14) + 40 →
      reflect_packet_ipv6 f len mode sc = f) ∧
    (len < (if word16be f 12 = 0x8100 ∨ word16be f 12 = 0x88A8 then 18 else 14) + 48 →
      ∀ i, (if word16be f 12 = 0x8100 ∨ word16be f 12 = 0x88A8 then 18 else 14) + 40 ≤ i →
        reflect_packet_ipv6 f len mode sc i = f i) := by
  refine ⟨fun h => ?_, fun h i hi => ?_, fun h i hi => ?_, fun h => ?_, fun h i hi => ?_⟩
  · simp only [reflect_packet_with_mode, if_pos h]
  · by_cases h14 : len < 14
    · simp only [reflect_packet_with_mode, if_pos h14]
    · have e1 : reflect_packet_with_mode f len mode sc = swapBlocks f 0 6 6 := by
        cases mode <;>
          simp only [reflect_packet_with_mode, if_neg h14, eq_self_iff_true, if_true,
            reduceCtorEq, if_false, if_pos (show len < 14 + 20 by omega)]
      rw [e1, sM_out f i hi]
  · by_cases h14 : len < 14
    · simp only [reflect_packet_with_mode, if_pos h14]
    · cases mode with
      | mac =>
        have e1 : reflect_packet_with_mode f len ReflectMode.mac sc =
            swapBlocks f 0 6 6 := by
          simp only [reflect_packet_with_mode, if_neg h14, eq_self_iff_true, if_true]
        rw [e1, sM_out f i (by omega)]
      | macIp =>
        by_cases h34 : len < 14 + 20
        · have e1 : reflect_packet_with_mode f len ReflectMode.macIp sc =
              swapBlocks f 0 6 6 := by
            simp only [reflect_packet_with_mode, if_neg h14, reduceCtorEq, if_false,
              if_pos h34]
          rw [e1, sM_out f i (by omega)]
        · by_cases hipg : f 14 % 16 * 4 < 20 ∨ len < 14 + f 14 % 16 * 4
          · have e1 : reflect_packet_with_mode f len ReflectMode.macIp sc =
                swapBlocks f 0 6 6 := by
              simp only [reflect_packet_with_mode, if_neg h14, reduceCtorEq, if_false,
                if_neg h34, sM_out f 14 (by omega), if_pos hipg]
            rw [e1, sM_out f i (by omega)]
          · have e1 : reflect_packet_with_mode f len ReflectMode.macIp sc =
                (if sc then
                  write_ip_checksum (swapBlocks (swapBlocks f 0 6 6) 26 30 4)
                    (f 14 % 16 * 4)
                 else swapBlocks (swapBlocks f 0 6 6) 26 30 4) := by
              simp only [reflect_packet_with_mode, if_neg h14, reduceCtorEq, if_false,
                if_neg h34, sM_out f 14 (by omega), if_neg hipg, eq_self_iff_true,
                if_true]
            rw [e1]
            cases sc with
            | false =>
              simp only [Bool.false_eq_true, if_false]
              rw [sI_out _ i (by omega), sM_out f i (by omega)]
            | true =>
              simp only [eq_self_iff_true, if_true, write_ip_checksum_eq]
              rw [writeBytes_apply_out _ _ _ _
                  (by simp only [List.length_cons, List.length_nil]; omega),
                sI_out _ i (by omega), sM_out f i (by omega)]
      | all =>
        by_cases h34 : len < 14 + 20
        · have e1 : reflect_packet_with_mode f len ReflectMode.all sc =
              swapBlocks f 0 6 6 := by
            simp only [reflect_packet_with_mode, if_neg h14, reduceCtorEq, if_false,
              if_pos h34]
          rw [e1, sM_out f i (by omega)]
        · by_cases hipg : f 14 % 16 * 4 < 20 ∨ len < 14 + f 14 % 16 * 4
          · have e1 : reflect_packet_with_mode f len ReflectMode.all sc =
                swapBlocks f 0 6 6 := by
              simp only [reflect_packet_with_mode, if_neg h14, reduceCtorEq, if_false,
                if_neg h34, sM_out f 14 (by omega), if_pos hipg]
            rw [e1, sM_out f i (by omega)]
          · have e1 : reflect_packet_with_mode f len ReflectMode.all sc =
                swapBlocks (swapBlocks f 0 6 6) 26 30 4 := by
              simp only [reflect_packet_with_mode, if_neg h14, reduceCtorEq, if_false,
                if_neg h34, sM_out f 14 (by omega), if_neg hipg, if_pos h]
            rw [e1, sI_out _ i (by omega), sM_out f i (by omega)]
  · simp only [reflect_packet_ipv6, if_pos h]
  · by_cases h40 :
        len < (if word16be f 12 = 0x8100 ∨ word16be f 12 = 0x88A8 then 18 else 14) + 40
    · simp only [reflect_packet_ipv6]
      by_cases hv : word16be f 12 = 0x8100 ∨ word16be f 12 = 0x88A8
      · rw [if_pos hv] at h40 hi ⊢
        rw [if_pos h40]
      · rw [if_neg hv] at h40 hi ⊢
        rw [if_pos h40]
    · simp only [reflect_packet_ipv6]
      by_cases hv : word16be f 12 = 0x8100 ∨ word16be f 12 = 0x88A8
      · rw [if_pos hv] at h40 hi h ⊢
        rw [if_neg h40]
        cases mode with
        | mac =>
          simp only [eq_self_iff_true, if_true]
          rw [sM_out f i (by omega)]
        | macIp =>
          simp only [reduceCtorEq, if_false, eq_self_iff_true, if_true]
          rw [swapBlocks_apply_out _ _ _ _ (by omega) i (by omega),
            sM_out f i (by omega)]
        | all =>
          simp only [reduceCtorEq, if_false, if_pos (show len < 18 + 40 + 8 by omega)]
          rw [swapBlocks_apply_out _ _ _ _ (by omega) i (by omega),
            sM_out f i (by omega)]
      · rw [if_neg hv] at h40 hi h ⊢
        rw [if_neg h40]
        cases mode with
        | mac =>
          simp only [eq_self_iff_true, if_true]
          rw [sM_out f i (by omega)]
        | macIp =>
          simp only [reduceCtorEq, if_false, eq_self_iff_true, if_true]
          rw [swapBlocks_apply_out _ _ _ _ (by omega) i (by omega),
            sM_out f i (by omega)]
        | all =>
          simp only [reduceCtorEq, if_false, if_pos (show len < 14 + 40 + 8 by omega)]
          rw [swapBlocks_apply_out _ _ _ _ (by omega) i (by omega),
            sM_out f i (by omega)]

/-- Witness for C6: a 10-byte frame is returned untouched by the IPv4
path, and a 40-byte frame is returned untouched by the IPv6 path. -/
theorem C6_short_frame_behavior_witness :
    reflect_packet_with_mode (bufOfList frame20) 10 ReflectMode.all true =
      bufOfList frame20 ∧
    reflect_packet_ipv6 (bufOfList frame20) 20 ReflectMode.all true =
      bufOfList frame20 :=
  ⟨(C6_short_frame_behavior (bufOfList frame20) 10 ReflectMode.all true).1 (by decide),
   (C6_short_frame_behavior (bufOfList frame20) 20 ReflectMode.all true).2.2.2.1
     (by decide)⟩

/- ======================================================================
   Worker reflection call (core.c:172)
   ====================================================================== -/

/-- The reflection the worker hot loop actually applies to an accepted
frame before appending it to the TX list:
`reflect_packet_with_checksum(data, len, config->software_checksum)`
(core.c:172).  Note that `config->reflect_mode` is not passed. -/
def worker_reflect (c : RConfig) (f : Buf) (len : Nat) : Buf :=
  reflect_packet_with_checksum f len c.software_checksum

/-- Structural facts that hold for every frame the fast-path classifier
accepts. -/
theorem is_ito_packet_accept_facts (f : Buf) (len : Nat) (v : ClassifyView)
    (hacc : is_ito_packet f len v = true) :
    54 ≤ len ∧ f 14 / 16 = 4 ∧ 5 ≤ f 14 % 16 ∧
      14 + f 14 % 16 * 4 + 8 + 12 ≤ len := by
  unfold is_ito_packet at hacc
  by_cases h1 : len < 54
  · rw [if_pos h1] at hacc
    exact absurd hacc (by decide)
  rw [if_neg h1] at hacc
  by_cases h2 : readBytes f 0 6 ≠ v.mac
  · rw [if_pos h2] at hacc
    exact absurd hacc (by decide)
  rw [if_neg h2] at hacc
  by_cases h3 : v.filter_oui = true ∧ (f 6 ≠ v.oui.getD 0 0 ∨ f 7 ≠ v.oui.getD 1 0 ∨
      f 8 ≠ v.oui.getD 2 0)
  · rw [if_pos h3] at hacc
    exact absurd hacc (by decide)
  rw [if_neg h3] at hacc
  by_cases h4 : word16be f 12 ≠ 0x0800
  · rw [if_pos h4] at hacc
    exact absurd hacc (by decide)
  rw [if_neg h4] at hacc
  by_cases h5 : f 14 / 16 ≠ 4 ∨ f 14 % 16 < 5
  · rw [if_pos h5] at hacc
    exact absurd hacc (by decide)
  rw [if_neg h5] at hacc
  by_cases h6 : f 23 ≠ 17
  · rw [if_pos h6] at hacc
    exact absurd hacc (by decide)
  rw [if_neg h6] at hacc
  by_cases h7 : v.ito_port ≠ 0 ∧ word16be f (14 + f 14 % 16 * 4 + 2) ≠ v.ito_port
  · rw [if_pos h7] at hacc
    exact absurd hacc (by decide)
  rw [if_neg h7] at hacc
  by_cases h8 : len < 14 + f 14 % 16 * 4 + 8 + 5 + 7
  · rw [if_pos h8] at hacc
    exact absurd hacc (by decide)
  omega

/-- **C2 (amended).**  On every frame the classifier accepts, the bytes the
worker hands to `send_batch` are those of `reflect_packet_with_checksum`,
which coincides with `reflect` in mode ALL with the configured
software-checksum flag; the configured `reflect_mode` plays no role. -/
theorem C2_worker_reflect_is_mode_all (c : RConfig) (v : ClassifyView) (f : Buf)
    (len : Nat) (hacc : is_ito_packet f len v = true) :
    worker_reflect c f len =
      reflect_packet_with_mode f len ReflectMode.all c.software_checksum := by
  obtain ⟨h54, hver, hihl, hlen⟩ := is_ito_packet_accept_facts f len v hacc
  have h42 : 42 ≤ len := by omega
  have hipg : ¬ (f 14 % 16 * 4 < 20 ∨ len < 14 + f 14 % 16 * 4) := by omega
  have e2 : reflect_packet_with_mode f len ReflectMode.all c.software_checksum =
      (if c.software_checksum = true ∧ 42 ≤ len then
        (let f4 := write_ip_checksum (swapBlocks (swapBlocks (swapBlocks f 0 6 6)
            26 30 4) (14 + f 14 % 16 * 4) (14 + f 14 % 16 * 4 + 2) 2) (f 14 % 16 * 4)
         let ul := word16be f4 (14 + f 14 % 16 * 4 + 4)
         if 14 + f 14 % 16 * 4 + ul ≤ len then
           write_udp_checksum f4 (14 + f 14 % 16 * 4) ul
         else f4)
       else
        swapBlocks (swapBlocks (swapBlocks f 0 6 6) 26 30 4) (14 + f 14 % 16 * 4)
          (14 + f 14 % 16 * 4 + 2) 2) := by
    simp only [reflect_packet_with_mode, if_neg (show ¬ len < 14 by omega),
      reduceCtorEq, if_false, if_neg (show ¬ len < 14 + 20 by omega),
      sM_out f 14 (by omega), if_neg hipg,
      if_neg (show ¬ len < 14 + f 14 % 16 * 4 + 8 by omega)]
  have e1 : worker_reflect c f len =
      (if c.software_checksum = true ∧ 42 ≤ len then
        (let f4 := write_ip_checksum (swapBlocks (swapBlocks (swapBlocks f 0 6 6)
            26 30 4) (14 + f 14 % 16 * 4) (14 + f 14 % 16 * 4 + 2) 2) (f 14 % 16 * 4)
         let ul := word16be f4 (14 + f 14 % 16 * 4 + 4)
         if 14 + f 14 % 16 * 4 + ul ≤ len then
           write_udp_checksum f4 (14 + f 14 % 16 * 4) ul
         else f4)
       else
        swapBlocks (swapBlocks (swapBlocks f 0 6 6) 26 30 4) (14 + f 14 % 16 * 4)
          (14 + f 14 % 16 * 4 + 2) 2) := by
    simp only [worker_reflect, reflect_packet_with_checksum, reflect_packet_inplace,
      reflect_packet_inplace_scalar, sM_out f 14 (by omega),
      sI_out (swapBlocks f 0 6 6) 14 (by omega),
      sP_out _ (14 + f 14 % 16 * 4) 14 (by omega),
      if_pos (show 20 ≤ f 14 % 16 * 4 ∧ 14 + f 14 % 16 * 4 + 8 ≤ len by omega)]
  rw [e1, e2]

/-- **C2 (counterexample).**  With `reflect_mode = MAC-only` configured, the
worker still swaps the IP addresses of an accepted PROBEOT frame: the
bytes handed to `send_batch` differ from
`reflect(config.reflect_mode, config.software_checksum)`. -/
theorem C2_worker_reflect_cex :
    is_ito_packet (bufOfList framePROBEOT) 54 cfgMacOnly.view = true ∧
    worker_reflect cfgMacOnly (bufOfList framePROBEOT) 54 ≠
      reflect_packet_with_mode (bufOfList framePROBEOT) 54 cfgMacOnly.reflect_mode
        cfgMacOnly.software_checksum :=
  ⟨by decide, fun h => absurd (congrFun h 29) (by decide)⟩

/-- Witness for C2 at the concrete PROBEOT frame and the default (ALL)
configuration. -/
theorem C2_worker_reflect_is_mode_all_witness :
    worker_reflect cfgAll (bufOfList framePROBEOT) 54 =
      reflect_packet_with_mode (bufOfList framePROBEOT) 54 ReflectMode.all
        cfgAll.software_checksum :=
  C2_worker_reflect_is_mode_all cfgAll cfgAll.view (bufOfList framePROBEOT) 54
    (by decide)

/- ======================================================================
   Claim theorems: classification filter table
   ====================================================================== -/

/-- All structural checks of the classifier (length, destination MAC,
optional OUI, EtherType, IP version/IHL, UDP protocol, optional port,
signature-field length) pass. -/
def structuralOk (f : Buf) (len : Nat) (v : ClassifyView) : Prop :=
  54 ≤ len ∧ readBytes f 0 6 = v.mac ∧
  (v.filter_oui = true →
    f 6 = v.oui.getD 0 0 ∧ f 7 = v.oui.getD 1 0 ∧ f 8 = v.oui.getD 2 0) ∧
  word16be f 12 = 0x0800 ∧ f 14 / 16 = 4 ∧ 5 ≤ f 14 % 16 ∧ f 23 = 17 ∧
  (v.ito_port ≠ 0 → word16be f (14 + f 14 % 16 * 4 + 2) = v.ito_port) ∧
  14 + f 14 % 16 * 4 + 8 + 5 + 7 ≤ len

/-- Modelled from the spec's filter table (§4.2): the set of signatures
each `sig_filter` value accepts. -/
def sigAllowed (filter : Nat) (sig : List Nat) : Prop :=
  (filter = 0 ∧ (sig = ITO_SIG_PROBEOT ∨ sig = ITO_SIG_DATAOT ∨
    sig = ITO_SIG_LATENCY ∨ sig = CUSTOM_SIG_RFC2544 ∨ sig = CUSTOM_SIG_Y1564)) ∨
  (filter = 1 ∧ (sig = ITO_SIG_PROBEOT ∨ sig = ITO_SIG_DATAOT ∨
    sig = ITO_SIG_LATENCY)) ∨
  (filter = 2 ∧ sig = CUSTOM_SIG_RFC2544) ∨
  (filter = 3 ∧ sig = CUSTOM_SIG_Y1564) ∨
  (filter = 4 ∧ (sig = CUSTOM_SIG_RFC2544 ∨ sig = CUSTOM_SIG_Y1564))

/-- **C3 (counterexample).**  With `sig_filter = RFC2544`, the extended
classifier still accepts a PROBEOT frame (whose signature is not
`RFC2544`), while the fast-path classifier rejects it: the filter table
does not hold for the extended classifier. -/
theorem C3_sig_filter_cex :
    (is_ito_packet_extended (bufOfList framePROBEOT) 54 cfgRfc).1 = true ∧
    readBytes (bufOfList framePROBEOT) 47 7 ≠ CUSTOM_SIG_RFC2544 ∧
    is_ito_packet (bufOfList framePROBEOT) 54 cfgRfc.view = false := by
  refine ⟨by decide, by decide, by decide⟩

/-- **C3 (amended).**  For every frame passing all structural checks, the
fast-path classifier accepts exactly the signatures of the configured
filter's set (the spec's table), while the extended classifier accepts
any of the five known signatures regardless of `sig_filter`. -/
theorem C3_sig_filter_table (f : Buf) (len : Nat) (c : RConfig)
    (hs : structuralOk f len c.view) (hf : c.view.sig_filter < 5) :
    (is_ito_packet f len c.view = true ↔
      sigAllowed c.view.sig_filter (readBytes f (14 + f 14 % 16 * 4 + 8 + 5) 7)) ∧
    ((is_ito_packet_extended f len c).1 = true ↔
      (readBytes f (14 + f 14 % 16 * 4 + 8 + 5) 7 = ITO_SIG_PROBEOT ∨
       readBytes f (14 + f 14 % 16 * 4 + 8 + 5) 7 = ITO_SIG_DATAOT ∨
       readBytes f (14 + f 14 % 16 * 4 + 8 + 5) 7 = ITO_SIG_LATENCY ∨
       readBytes f (14 + f 14 % 16 * 4 + 8 + 5) 7 = CUSTOM_SIG_RFC2544 ∨
       readBytes f (14 + f 14 % 16 * 4 + 8 + 5) 7 = CUSTOM_SIG_Y1564)) := by
  obtain ⟨h54, hmac, houi, heth, hver, hihl, hproto, hport, hsig⟩ := hs
  constructor
  · rw [is_ito_packet, if_neg (by omega), if_neg (fun hx => hx hmac),
      if_neg (by
        rintro ⟨ho, hx⟩
        rcases hx with h | h | h
        exacts [h (houi ho).1, h (houi ho).2.1, h (houi ho).2.2]),
      if_neg (by simp [heth]), if_neg (by omega), if_neg (by simp [hproto]),
      if_neg (by rintro ⟨hp, hx⟩; exact hx (hport hp)), if_neg (by omega)]
    have h5 : c.view.sig_filter = 0 ∨ c.view.sig_filter = 1 ∨ c.view.sig_filter = 2 ∨
        c.view.sig_filter = 3 ∨ c.view.sig_filter = 4 := by omega
    rcases h5 with h | h | h | h | h <;> rw [h] <;>
      split_ifs with hA hB hC <;>
      simp_all [sigAllowed] <;> tauto
  · rw [is_ito_packet_extended, if_neg (by omega), if_neg (fun hx => hx hmac),
      if_neg (by
        rintro ⟨ho, hx⟩
        rcases hx with h | h | h
        exacts [h (houi ho).1, h (houi ho).2.1, h (houi ho).2.2]),
      if_neg (by rw [heth]; decide),
      ito_ext_after_eth, if_pos heth, if_neg (by omega),
      if_neg (by omega),
      ito_ext_transport, if_neg (by simp [hproto]), if_neg (by omega),
      if_neg (by rintro ⟨hp, hx⟩; exact hx (hport hp))]
    split_ifs with hA hB <;> simp_all <;> tauto

/-- Witness for C3 at the PROBEOT frame under the ITO filter
(`sig_filter = 1`). -/
theorem C3_sig_filter_table_witness :
    (is_ito_packet (bufOfList framePROBEOT) 54 cfgAll.view = true ↔
      sigAllowed cfgAll.view.sig_filter
        (readBytes (bufOfList framePROBEOT)
          (14 + bufOfList framePROBEOT 14 % 16 * 4 + 8 + 5) 7)) ∧
    ((is_ito_packet_extended (bufOfList framePROBEOT) 54 cfgAll).1 = true ↔
      (readBytes (bufOfList framePROBEOT)
          (14 + bufOfList framePROBEOT 14 % 16 * 4 + 8 + 5) 7 = ITO_SIG_PROBEOT ∨
       readBytes (bufOfList framePROBEOT)
          (14 + bufOfList framePROBEOT 14 % 16 * 4 + 8 + 5) 7 = ITO_SIG_DATAOT ∨
       readBytes (bufOfList framePROBEOT)
          (14 + bufOfList framePROBEOT 14 % 16 * 4 + 8 + 5) 7 = ITO_SIG_LATENCY ∨
       readBytes (bufOfList framePROBEOT)
          (14 + bufOfList framePROBEOT 14 % 16 * 4 + 8 + 5) 7 = CUSTOM_SIG_RFC2544 ∨
       readBytes (bufOfList framePROBEOT)
          (14 + bufOfList framePROBEOT 14 % 16 * 4 + 8 + 5) 7 = CUSTOM_SIG_Y1564)) :=
  C3_sig_filter_table (bufOfList framePROBEOT) 54 cfgAll
    (by refine ⟨by decide, by decide, fun _ => ⟨by decide, by decide, by decide⟩,
      by decide, by decide, by decide, by decide, fun _ => by decide, by decide⟩)
    (by decide)

/- ======================================================================
   The worker's mis-typed classifier call (core.c:153)
   ====================================================================== -/

/-- `reflect_mode_t` as its enum integer. -/
def reflectModeNat : ReflectMode → Nat
  | ReflectMode.mac => 0
  | ReflectMode.macIp => 1
  | ReflectMode.all => 2

/-- The in-memory bytes of a `reflector_config_t` under the x86-64 SysV
layout of reflector.h:265 (little-endian scalars): `ifname` at 0,
`ifindex` at 16, `mac` at 20, `num_workers` at 28, three bools at 32,
`batch_size`/`frame_size`/`num_frames` at 36/40/44, `queue_id` at 48,
`busy_poll` at 52, `poll_timeout_ms` at 56, `measure_latency` at 60,
`stats_format` at 64, `stats_interval_sec` at 68, `cpu_affinity` at 72,
three bools at 76, `dpdk_args` at 80, `ito_port` at 88, `filter_oui` at
90, `oui` at 91, `reflect_mode` at 96, `sig_filter` at 100, two bools at
104.  Bytes not determined by the modelled fields (ifname, padding,
pointers, anything past offset 105) are the unconstrained `pad`. -/
def configAbiByte (c : RConfig) (pad : Nat → Nat) : Nat → Nat := fun o =>
  if 20 ≤ o ∧ o < 26 then c.mac.getD (o - 20) 0
  else if 36 ≤ o ∧ o < 40 then c.batch_size / 256 ^ (o - 36) % 256
  else if 40 ≤ o ∧ o < 44 then c.frame_size / 256 ^ (o - 40) % 256
  else if 44 ≤ o ∧ o < 48 then c.num_frames / 256 ^ (o - 44) % 256
  else if o = 60 then (if c.measure_latency then 1 else 0)
  else if o = 77 then (if c.software_checksum then 1 else 0)
  else if 88 ≤ o ∧ o < 90 then c.ito_port / 256 ^ (o - 88) % 256
  else if o = 90 then (if c.filter_oui then 1 else 0)
  else if 91 ≤ o ∧ o < 94 then c.oui.getD (o - 91) 0
  else if 96 ≤ o ∧ o < 100 then reflectModeNat c.reflect_mode / 256 ^ (o - 96) % 256
  else if 100 ≤ o ∧ o < 104 then c.sig_filter / 256 ^ (o - 100) % 256
  else if o = 104 then (if c.enable_ipv6 then 1 else 0)
  else if o = 105 then (if c.enable_vlan then 1 else 0)
  else pad o

/-- The `ClassifyView` obtained when `is_ito_packet` dereferences a
`reflector_config_t *` that actually points 20 bytes into the real
struct (at `&config->mac[0]`): every field is read 20 bytes too far. -/
def misreadView (bytes : Nat → Nat) : ClassifyView :=
  { mac := [bytes 40, bytes 41, bytes 42, bytes 43, bytes 44, bytes 45],
    filter_oui := bytes 110 ≠ 0,
    oui := [bytes 111, bytes 112, bytes 113],
    ito_port := bytes 108 + bytes 109 * 256,
    sig_filter := bytes 120 + bytes 121 * 256 + bytes 122 * 65536 +
      bytes 123 * 16777216 }

/-- The accept decision the worker hot loop actually computes:
`is_ito_packet(pkts_rx[i].data, pkts_rx[i].len, wctx->config->mac)`
(core.c:153) passes `&config->mac[0]` where `reflector.h:561` expects a
`const reflector_config_t *`, so the callee reads every config field 20
bytes past its true offset. -/
def worker_classify (c : RConfig) (pad : Nat → Nat) (f : Buf) (len : Nat) : Bool :=
  is_ito_packet f len (misreadView (configAbiByte c pad))

/-- **C9.**  The worker passes `config->mac` where `is_ito_packet` expects
the whole configuration; the "destination MAC" it then compares against
is the little-endian bytes of `frame_size`/`num_frames`, so (whatever the
indeterminate padding bytes hold) the worker rejects a frame that
`is_ito_packet` applied to the actual configuration accepts. -/
theorem C9_worker_classify_mismatch (pad : Nat → Nat) :
    worker_classify cfgAll pad (bufOfList framePROBEOT) 54 = false ∧
    is_ito_packet (bufOfList framePROBEOT) 54 cfgAll.view = true := by
  constructor
  · have hm : (misreadView (configAbiByte cfgAll pad)).mac = [0, 16, 0, 0, 0, 16] := by
      norm_num [misreadView, configAbiByte, cfgAll]
    rw [worker_classify, is_ito_packet, if_neg (by decide),
      if_pos (by rw [hm]; decide)]
  · decide

/- ======================================================================
   Statistics aggregation (core.c:657 reflector_get_stats)
   ====================================================================== -/

/-- `latency_stats_t` (reflector.h:205); `avg_ns` (a C `double` holding a
quotient of 64-bit integers) is modelled as the exact rational. -/
structure LatStats where
  count : Nat
  total_ns : Nat
  min_ns : Nat
  max_ns : Nat
  avg_ns : ℚ
deriving DecidableEq, Repr

/-- `reflector_stats_t` (reflector.h:214), with `pps`/`mbps` as rationals. -/
structure RStats where
  packets_received : Nat
  packets_reflected : Nat
  packets_dropped : Nat
  bytes_received : Nat
  bytes_reflected : Nat
  sig_probeot_count : Nat
  sig_dataot_count : Nat
  sig_latency_count : Nat
  sig_rfc2544_count : Nat
  sig_y1564_count : Nat
  sig_unknown_count : Nat
  err_invalid_mac : Nat
  err_invalid_ethertype : Nat
  err_invalid_protocol : Nat
  err_invalid_signature : Nat
  err_too_short : Nat
  err_tx_failed : Nat
  err_nomem : Nat
  rx_invalid : Nat
  rx_nomem : Nat
  tx_errors : Nat
  poll_timeout : Nat
  latency : LatStats
  pps : ℚ
  mbps : ℚ
  start_time_ns : Nat
  last_update_ns : Nat
deriving DecidableEq, Repr

/-- The all-zero statistics (the `memset(stats, 0, ...)`). -/
def zeroStats : RStats :=
  ⟨0, 0, 0, 0, 0, 0, 0, 0, 0, 0, 0, 0, 0, 0, 0, 0, 0, 0, 0, 0, 0, 0,
   ⟨0, 0, 0, 0, 0⟩, 0, 0, 0, 0⟩

/-- The latency merge of one worker into the running aggregate
(core.c:690–707): add `count` and `total_ns`; the first worker with data
(detected by `count == worker.count` after the addition) seeds min/max,
later ones min/max-reduce.  `avg_ns` is not touched inside the loop. -/
def aggLatStep (s w : LatStats) : LatStats :=
  if 0 < w.count then
    { count := s.count + w.count,
      total_ns := s.total_ns + w.total_ns,
      min_ns :=
        if s.count + w.count = w.count then w.min_ns
        else if w.min_ns < s.min_ns then w.min_ns else s.min_ns,
      max_ns :=
        if s.count + w.count = w.count then w.max_ns
        else if w.max_ns > s.max_ns then w.max_ns else s.max_ns,
      avg_ns := s.avg_ns }
  else s

/-- One iteration of the `reflector_get_stats` aggregation loop
(core.c:661–708): note that `sig_rfc2544_count`, `sig_y1564_count` and
the legacy `poll_timeout` counter are never added. -/
def aggStep (s w : RStats) : RStats :=
  { s with
    packets_received := s.packets_received + w.packets_received,
    packets_reflected := s.packets_reflected + w.packets_reflected,
    packets_dropped := s.packets_dropped + w.packets_dropped,
    bytes_received := s.bytes_received + w.bytes_received,
    bytes_reflected := s.bytes_reflected + w.bytes_reflected,
    sig_probeot_count := s.sig_probeot_count + w.sig_probeot_count,
    sig_dataot_count := s.sig_dataot_count + w.sig_dataot_count,
    sig_latency_count := s.sig_latency_count + w.sig_latency_count,
    sig_unknown_count := s.sig_unknown_count + w.sig_unknown_count,
    err_invalid_mac := s.err_invalid_mac + w.err_invalid_mac,
    err_invalid_ethertype := s.err_invalid_ethertype + w.err_invalid_ethertype,
    err_invalid_protocol := s.err_invalid_protocol + w.err_invalid_protocol,
    err_invalid_signature := s.err_invalid_signature + w.err_invalid_signature,
    err_too_short := s.err_too_short + w.err_too_short,
    err_tx_failed := s.err_tx_failed + w.err_tx_failed,
    err_nomem := s.err_nomem + w.err_nomem,
    rx_invalid := s.rx_invalid + w.rx_invalid,
    rx_nomem := s.rx_nomem + w.rx_nomem,
    tx_errors := s.tx_errors + w.tx_errors,
    latency := aggLatStep s.latency w.latency }

/-- `reflector_get_stats` (core.c:657): zero the output, fold the workers,
then recompute the average latency from the merged sum and count. -/
def reflector_get_stats (workers : List RStats) : RStats :=
  let s := workers.foldl aggStep zeroStats
  if 0 < s.latency.count then
    { s with latency :=
      { s.latency with avg_ns := (s.latency.total_ns : ℚ) / (s.latency.count : ℚ) } }
  else s

/-- Modelled from the spec: the min-reduction of `min_ns` over the workers
with a non-empty latency reservoir (0 when none has data). -/
def minOverNonEmpty (ws : List RStats) : Nat :=
  match ws.filter (fun w => w.latency.count ≠ 0) with
  | [] => 0
  | w :: rest => rest.foldl (fun m x => min m x.latency.min_ns) w.latency.min_ns

/-- Modelled from the spec: the max-reduction of `max_ns` over the workers
with a non-empty latency reservoir (0 when none has data). -/
def maxOverNonEmpty (ws : List RStats) : Nat :=
  match ws.filter (fun w => w.latency.count ≠ 0) with
  | [] => 0
  | w :: rest => rest.foldl (fun m x => max m x.latency.max_ns) w.latency.max_ns

theorem foldl_aggStep_additive (g : RStats → Nat)
    (hg : ∀ s w, g (aggStep s w) = g s + g w) (ws : List RStats) (s : RStats) :
    g (ws.foldl aggStep s) = g s + (ws.map g).sum := by
  induction ws generalizing s with
  | nil => simp
  | cons w rest ih =>
    simp only [List.foldl_cons, List.map_cons, List.sum_cons, ih, hg]
    omega

theorem foldl_aggStep_const (g : RStats → Nat)
    (hg : ∀ s w, g (aggStep s w) = g s) (ws : List RStats) (s : RStats) :
    g (ws.foldl aggStep s) = g s := by
  induction ws generalizing s with
  | nil => rfl
  | cons w rest ih => simp only [List.foldl_cons, ih, hg]

theorem lat_count_additive (s w : RStats) :
    (aggStep s w).latency.count = s.latency.count + w.latency.count := by
  show (aggLatStep s.latency w.latency).count = _
  rw [aggLatStep]
  split
  · rfl
  · next h =>
    show s.latency.count = _
    omega

theorem foldl_lat_count (ws : List RStats) (s : RStats) :
    (ws.foldl aggStep s).latency.count =
      s.latency.count + (ws.map (fun w => w.latency.count)).sum := by
  induction ws generalizing s with
  | nil => simp
  | cons w rest ih =>
    simp only [List.foldl_cons, List.map_cons, List.sum_cons, ih, lat_count_additive]
    omega

theorem foldl_lat_total (ws : List RStats) (s : RStats) :
    (ws.foldl aggStep s).latency.total_ns =
      s.latency.total_ns +
        ((ws.filter (fun w => w.latency.count ≠ 0)).map
          (fun w => w.latency.total_ns)).sum := by
  induction ws generalizing s with
  | nil => simp
  | cons w rest ih =>
    by_cases hw : w.latency.count = 0
    · have hl : (aggStep s w).latency = s.latency := by
        show aggLatStep s.latency w.latency = s.latency
        rw [aggLatStep, if_neg (by omega)]
      simp only [List.foldl_cons, List.filter_cons]
      rw [show (decide ¬ w.latency.count = 0) = false by simp [hw]]
      simp only [Bool.false_eq_true, if_false]
      rw [ih, hl]
    · have hl : (aggStep s w).latency.total_ns =
          s.latency.total_ns + w.latency.total_ns := by
        show (aggLatStep s.latency w.latency).total_ns = _
        rw [aggLatStep, if_pos (by omega)]
      simp only [List.foldl_cons, List.filter_cons]
      rw [show (decide ¬ w.latency.count = 0) = true by simp [hw]]
      simp only [if_true, List.map_cons, List.sum_cons]
      rw [ih, hl]
      omega

/-- Once the aggregate has latency data, the fold min-reduces `min_ns`
over the remaining non-empty workers. -/
theorem foldl_lat_min_started (ws : List RStats) (s : RStats)
    (hs : s.latency.count ≠ 0) :
    (ws.foldl aggStep s).latency.min_ns =
      (ws.filter (fun w => w.latency.count ≠ 0)).foldl
        (fun m x => min m x.latency.min_ns) s.latency.min_ns := by
  induction ws generalizing s with
  | nil => rfl
  | cons w rest ih =>
    by_cases hw : w.latency.count = 0
    · have hl : (aggStep s w).latency = s.latency := by
        show aggLatStep s.latency w.latency = s.latency
        rw [aggLatStep, if_neg (by omega)]
      simp only [List.foldl_cons, List.filter_cons]
      rw [show (decide ¬ w.latency.count = 0) = false by simp [hw]]
      simp only [Bool.false_eq_true, if_false]
      rw [ih _ (by rw [hl]; exact hs), hl]
    · have hl1 : (aggStep s w).latency.min_ns =
          min s.latency.min_ns w.latency.min_ns := by
        show (aggLatStep s.latency w.latency).min_ns = _
        rw [aggLatStep, if_pos (by omega)]
        show (if s.latency.count + w.latency.count = w.latency.count then
            w.latency.min_ns
          else if w.latency.min_ns < s.latency.min_ns then w.latency.min_ns
          else s.latency.min_ns) = _
        rw [if_neg (by omega), Nat.min_def]
        split_ifs <;> omega
      simp only [List.foldl_cons, List.filter_cons]
      rw [show (decide ¬ w.latency.count = 0) = true by simp [hw]]
      simp only [if_true]
      rw [ih _ (by rw [lat_count_additive]; omega), hl1, List.foldl_cons]

/-- From an empty aggregate, the first non-empty worker seeds `min_ns` and
the rest min-reduce. -/
theorem foldl_lat_min_empty (ws : List RStats) (s : RStats)
    (hs : s.latency.count = 0) :
    (ws.foldl aggStep s).latency.min_ns =
      (match ws.filter (fun w => w.latency.count ≠ 0) with
       | [] => s.latency.min_ns
       | w :: rest => rest.foldl (fun m x => min m x.latency.min_ns)
           w.latency.min_ns) := by
  induction ws generalizing s with
  | nil => rfl
  | cons w rest ih =>
    by_cases hw : w.latency.count = 0
    · have hl : (aggStep s w).latency = s.latency := by
        show aggLatStep s.latency w.latency = s.latency
        rw [aggLatStep, if_neg (by omega)]
      simp only [List.foldl_cons, List.filter_cons]
      rw [show (decide ¬ w.latency.count = 0) = false by simp [hw]]
      simp only [Bool.false_eq_true, if_false]
      rw [ih _ (by rw [hl]; exact hs), hl]
    · have hmin : (aggStep s w).latency.min_ns = w.latency.min_ns := by
        show (aggLatStep s.latency w.latency).min_ns = _
        rw [aggLatStep, if_pos (by omega)]
        show (if s.latency.count + w.latency.count = w.latency.count then
            w.latency.min_ns
          else if w.latency.min_ns < s.latency.min_ns then w.latency.min_ns
          else s.latency.min_ns) = _
        rw [if_pos (by omega)]
      simp only [List.foldl_cons, List.filter_cons]
      rw [show (decide ¬ w.latency.count = 0) = true by simp [hw]]
      simp only [if_true]
      rw [foldl_lat_min_started _ _ (by rw [lat_count_additive]; omega), hmin]

/-- Once the aggregate has latency data, the fold max-reduces `max_ns`. -/
theorem foldl_lat_max_started (ws : List RStats) (s : RStats)
    (hs : s.latency.count ≠ 0) :
    (ws.foldl aggStep s).latency.max_ns =
      (ws.filter (fun w => w.latency.count ≠ 0)).foldl
        (fun m x => max m x.latency.max_ns) s.latency.max_ns := by
  induction ws generalizing s with
  | nil => rfl
  | cons w rest ih =>
    by_cases hw : w.latency.count = 0
    · have hl : (aggStep s w).latency = s.latency := by
        show aggLatStep s.latency w.latency = s.latency
        rw [aggLatStep, if_neg (by omega)]
      simp only [List.foldl_cons, List.filter_cons]
      rw [show (decide ¬ w.latency.count = 0) = false by simp [hw]]
      simp only [Bool.false_eq_true, if_false]
      rw [ih _ (by rw [hl]; exact hs), hl]
    · have hl1 : (aggStep s w).latency.max_ns =
          max s.latency.max_ns w.latency.max_ns := by
        show (aggLatStep s.latency w.latency).max_ns = _
        rw [aggLatStep, if_pos (by omega)]
        show (if s.latency.count + w.latency.count = w.latency.count then
            w.latency.max_ns
          else if w.latency.max_ns > s.latency.max_ns then w.latency.max_ns
          else s.latency.max_ns) = _
        rw [if_neg (by omega), Nat.max_def]
        split_ifs <;> omega
      simp only [List.foldl_cons, List.filter_cons]
      rw [show (decide ¬ w.latency.count = 0) = true by simp [hw]]
      simp only [if_true]
      rw [ih _ (by rw [lat_count_additive]; omega), hl1, List.foldl_cons]

/-- From an empty aggregate, the first non-empty worker seeds `max_ns`. -/
theorem foldl_lat_max_empty (ws : List RStats) (s : RStats)
    (hs : s.latency.count = 0) :
    (ws.foldl aggStep s).latency.max_ns =
      (match ws.filter (fun w => w.latency.count ≠ 0) with
       | [] => s.latency.max_ns
       | w :: rest => rest.foldl (fun m x => max m x.latency.max_ns)
           w.latency.max_ns) := by
  induction ws generalizing s with
  | nil => rfl
  | cons w rest ih =>
    by_cases hw : w.latency.count = 0
    · have hl : (aggStep s w).latency = s.latency := by
        show aggLatStep s.latency w.latency = s.latency
        rw [aggLatStep, if_neg (by omega)]
      simp only [List.foldl_cons, List.filter_cons]
      rw [show (decide ¬ w.latency.count = 0) = false by simp [hw]]
      simp only [Bool.false_eq_true, if_false]
      rw [ih _ (by rw [hl]; exact hs), hl]
    · have hmax : (aggStep s w).latency.max_ns = w.latency.max_ns := by
        show (aggLatStep s.latency w.latency).max_ns = _
        rw [aggLatStep, if_pos (by omega)]
        show (if s.latency.count + w.latency.count = w.latency.count then
            w.latency.max_ns
          else if w.latency.max_ns > s.latency.max_ns then w.latency.max_ns
          else s.latency.max_ns) = _
        rw [if_pos (by omega)]
      simp only [List.foldl_cons, List.filter_cons]
      rw [show (decide ¬ w.latency.count = 0) = true by simp [hw]]
      simp only [if_true]
      rw [foldl_lat_max_started _ _ (by rw [lat_count_additive]; omega), hmax]

/-- Forget the (floating-point) average so the rest of the record can be
compared across the two branches of `reflector_get_stats`. -/
def eraseAvg (r : RStats) : RStats := { r with latency := { r.latency with avg_ns := 0 } }

theorem get_stats_eraseAvg (ws : List RStats) :
    eraseAvg (reflector_get_stats ws) = eraseAvg (ws.foldl aggStep zeroStats) := by
  show eraseAvg (if 0 < (ws.foldl aggStep zeroStats).latency.count then _ else _) = _
  split
  · rfl
  · rfl

theorem lat_avg_const (ws : List RStats) (s : RStats) :
    (ws.foldl aggStep s).latency.avg_ns = s.latency.avg_ns := by
  induction ws generalizing s with
  | nil => rfl
  | cons w rest ih =>
    rw [List.foldl_cons, ih]
    show (aggLatStep s.latency w.latency).avg_ns = _
    rw [aggLatStep]
    split
    · rfl
    · rfl

/-- A one-worker statistics record carrying only counters that
`reflector_get_stats` fails to aggregate. -/
def wDropStats : RStats :=
  { zeroStats with sig_rfc2544_count := 1, sig_y1564_count := 2, poll_timeout := 3 }

/-- **C5 (counterexample).**  A worker with `sig_rfc2544_count = 1`,
`sig_y1564_count = 2` and legacy `poll_timeout = 3` aggregates to zeros:
`reflector_get_stats` never sums these three counters. -/
theorem C5_get_stats_cex :
    (reflector_get_stats [wDropStats]).sig_rfc2544_count = 0 ∧
    (reflector_get_stats [wDropStats]).sig_y1564_count = 0 ∧
    (reflector_get_stats [wDropStats]).poll_timeout = 0 ∧
    wDropStats.sig_rfc2544_count = 1 ∧ wDropStats.sig_y1564_count = 2 ∧
    wDropStats.poll_timeout = 3 :=
  ⟨rfl, rfl, rfl, rfl, rfl, rfl⟩

/-- **C5 (amended).**  `reflector_get_stats` sums, over all workers, the
RX/TX totals, four of the six per-signature counts (PROBEOT, DATA:OT,
LATENCY, unknown), every per-error count and the legacy `rx_invalid`,
`rx_nomem` and `tx_errors` counters — but leaves `sig_rfc2544_count`,
`sig_y1564_count` and the legacy `poll_timeout` at zero.  The latency
reservoir is merged by summing `count` and `total_ns`, min/max-reducing
`min_ns`/`max_ns` over the non-empty reservoirs, and recomputing
`avg_ns` as total/count. -/
theorem C5_get_stats_aggregation (ws : List RStats) :
    (reflector_get_stats ws).packets_received =
      (ws.map (fun w => w.packets_received)).sum ∧
    (reflector_get_stats ws).packets_reflected =
      (ws.map (fun w => w.packets_reflected)).sum ∧
    (reflector_get_stats ws).packets_dropped =
      (ws.map (fun w => w.packets_dropped)).sum ∧
    (reflector_get_stats ws).bytes_received =
      (ws.map (fun w => w.bytes_received)).sum ∧
    (reflector_get_stats ws).bytes_reflected =
      (ws.map (fun w => w.bytes_reflected)).sum ∧
    (reflector_get_stats ws).sig_probeot_count =
      (ws.map (fun w => w.sig_probeot_count)).sum ∧
    (reflector_get_stats ws).sig_dataot_count =
      (ws.map (fun w => w.sig_dataot_count)).sum ∧
    (reflector_get_stats ws).sig_latency_count =
      (ws.map (fun w => w.sig_latency_count)).sum ∧
    (reflector_get_stats ws).sig_unknown_count =
      (ws.map (fun w => w.sig_unknown_count)).sum ∧
    (reflector_get_stats ws).err_invalid_mac =
      (ws.map (fun w => w.err_invalid_mac)).sum ∧
    (reflector_get_stats ws).err_invalid_ethertype =
      (ws.map (fun w => w.err_invalid_ethertype)).sum ∧
    (reflector_get_stats ws).err_invalid_protocol =
      (ws.map (fun w => w.err_invalid_protocol)).sum ∧
    (reflector_get_stats ws).err_invalid_signature =
      (ws.map (fun w => w.err_invalid_signature)).sum ∧
    (reflector_get_stats ws).err_too_short =
      (ws.map (fun w => w.err_too_short)).sum ∧
    (reflector_get_stats ws).err_tx_failed =
      (ws.map (fun w => w.err_tx_failed)).sum ∧
    (reflector_get_stats ws).err_nomem =
      (ws.map (fun w => w.err_nomem)).sum ∧
    (reflector_get_stats ws).rx_invalid =
      (ws.map (fun w => w.rx_invalid)).sum ∧
    (reflector_get_stats ws).rx_nomem =
      (ws.map (fun w => w.rx_nomem)).sum ∧
    (reflector_get_stats ws).tx_errors =
      (ws.map (fun w => w.tx_errors)).sum ∧
    (reflector_get_stats ws).sig_rfc2544_count = 0 ∧
    (reflector_get_stats ws).sig_y1564_count = 0 ∧
    (reflector_get_stats ws).poll_timeout = 0 ∧
    (reflector_get_stats ws).latency.count =
      (ws.map (fun w => w.latency.count)).sum ∧
    (reflector_get_stats ws).latency.total_ns =
      ((ws.filter (fun w => w.latency.count ≠ 0)).map
        (fun w => w.latency.total_ns)).sum ∧
    (reflector_get_stats ws).latency.min_ns = minOverNonEmpty ws ∧
    (reflector_get_stats ws).latency.max_ns = maxOverNonEmpty ws ∧
    (reflector_get_stats ws).latency.avg_ns =
      (if 0 < (reflector_get_stats ws).latency.count then
        ((reflector_get_stats ws).latency.total_ns : ℚ) /
          ((reflector_get_stats ws).latency.count : ℚ)
       else 0) := by
  have he := get_stats_eraseAvg ws
  refine ⟨?_, ?_, ?_, ?_, ?_, ?_, ?_, ?_, ?_, ?_, ?_, ?_, ?_, ?_, ?_, ?_, ?_, ?_, ?_,
    ?_, ?_, ?_, ?_, ?_, ?_, ?_, ?_⟩
  · exact (congrArg (fun r => r.packets_received) he).trans
      (by simpa [zeroStats] using
        foldl_aggStep_additive (fun r => r.packets_received) (fun s w => rfl) ws zeroStats)
  · exact (congrArg (fun r => r.packets_reflected) he).trans
      (by simpa [zeroStats] using
        foldl_aggStep_additive (fun r => r.packets_reflected) (fun s w => rfl) ws zeroStats)
  · exact (congrArg (fun r => r.packets_dropped) he).trans
      (by simpa [zeroStats] using
        foldl_aggStep_additive (fun r => r.packets_dropped) (fun s w => rfl) ws zeroStats)
  · exact (congrArg (fun r => r.bytes_received) he).trans
      (by simpa [zeroStats] using
        foldl_aggStep_additive (fun r => r.bytes_received) (fun s w => rfl) ws zeroStats)
  · exact (congrArg (fun r => r.bytes_reflected) he).trans
      (by simpa [zeroStats] using
        foldl_aggStep_additive (fun r => r.bytes_reflected) (fun s w => rfl) ws zeroStats)
  · exact (congrArg (fun r => r.sig_probeot_count) he).trans
      (by simpa [zeroStats] using
        foldl_aggStep_additive (fun r => r.sig_probeot_count) (fun s w => rfl) ws zeroStats)
  · exact (congrArg (fun r => r.sig_dataot_count) he).trans
      (by simpa [zeroStats] using
        foldl_aggStep_additive (fun r => r.sig_dataot_count) (fun s w => rfl) ws zeroStats)
  · exact (congrArg (fun r => r.sig_latency_count) he).trans
      (by simpa [zeroStats] using
        foldl_aggStep_additive (fun r => r.sig_latency_count) (fun s w => rfl) ws zeroStats)
  · exact (congrArg (fun r => r.sig_unknown_count) he).trans
      (by simpa [zeroStats] using
        foldl_aggStep_additive (fun r => r.sig_unknown_count) (fun s w => rfl) ws zeroStats)
  · exact (congrArg (fun r => r.err_invalid_mac) he).trans
      (by simpa [zeroStats] using
        foldl_aggStep_additive (fun r => r.err_invalid_mac) (fun s w => rfl) ws zeroStats)
  · exact (congrArg (fun r => r.err_invalid_ethertype) he).trans
      (by simpa [zeroStats] using
        foldl_aggStep_additive (fun r => r.err_invalid_ethertype) (fun s w => rfl) ws zeroStats)
  · exact (congrArg (fun r => r.err_invalid_protocol) he).trans
      (by simpa [zeroStats] using
        foldl_aggStep_additive (fun r => r.err_invalid_protocol) (fun s w => rfl) ws zeroStats)
  · exact (congrArg (fun r => r.err_invalid_signature) he).trans
      (by simpa [zeroStats] using
        foldl_aggStep_additive (fun r => r.err_invalid_signature) (fun s w => rfl) ws zeroStats)
  · exact (congrArg (fun r => r.err_too_short) he).trans
      (by simpa [zeroStats] using
        foldl_aggStep_additive (fun r => r.err_too_short) (fun s w => rfl) ws zeroStats)
  · exact (congrArg (fun r => r.err_tx_failed) he).trans
      (by simpa [zeroStats] using
        foldl_aggStep_additive (fun r => r.err_tx_failed) (fun s w => rfl) ws zeroStats)
  · exact (congrArg (fun r => r.err_nomem) he).trans
      (by simpa [zeroStats] using
        foldl_aggStep_additive (fun r => r.err_nomem) (fun s w => rfl) ws zeroStats)
  · exact (congrArg (fun r => r.rx_invalid) he).trans
      (by simpa [zeroStats] using
        foldl_aggStep_additive (fun r => r.rx_invalid) (fun s w => rfl) ws zeroStats)
  · exact (congrArg (fun r => r.rx_nomem) he).trans
      (by simpa [zeroStats] using
        foldl_aggStep_additive (fun r => r.rx_nomem) (fun s w => rfl) ws zeroStats)
  · exact (congrArg (fun r => r.tx_errors) he).trans
      (by simpa [zeroStats] using
        foldl_aggStep_additive (fun r => r.tx_errors) (fun s w => rfl) ws zeroStats)
  · exact (congrArg (fun r => r.sig_rfc2544_count) he).trans
      (foldl_aggStep_const (fun r => r.sig_rfc2544_count) (fun s w => rfl) ws zeroStats)
  · exact (congrArg (fun r => r.sig_y1564_count) he).trans
      (foldl_aggStep_const (fun r => r.sig_y1564_count) (fun s w => rfl) ws zeroStats)
  · exact (congrArg (fun r => r.poll_timeout) he).trans
      (foldl_aggStep_const (fun r => r.poll_timeout) (fun s w => rfl) ws zeroStats)
  · exact (congrArg (fun r => r.latency.count) he).trans
      (by simpa [zeroStats] using foldl_lat_count ws zeroStats)
  · refine (congrArg (fun r => r.latency.total_ns) he).trans ?_
    show (ws.foldl aggStep zeroStats).latency.total_ns = _
    rw [foldl_lat_total ws zeroStats, show zeroStats.latency.total_ns = 0 from rfl,
      Nat.zero_add]
  · refine (congrArg (fun r => r.latency.min_ns) he).trans ?_
    show (ws.foldl aggStep zeroStats).latency.min_ns = _
    rw [foldl_lat_min_empty ws zeroStats rfl, minOverNonEmpty.eq_def]
    cases hfe : ws.filter (fun w => w.latency.count ≠ 0) <;> rfl
  · refine (congrArg (fun r => r.latency.max_ns) he).trans ?_
    show (ws.foldl aggStep zeroStats).latency.max_ns = _
    rw [foldl_lat_max_empty ws zeroStats rfl, maxOverNonEmpty.eq_def]
    cases hfe : ws.filter (fun w => w.latency.count ≠ 0) <;> rfl
  · have hc2 : (reflector_get_stats ws).latency.count =
        (ws.foldl aggStep zeroStats).latency.count :=
      congrArg (fun r => r.latency.count) he
    have ht2 : (reflector_get_stats ws).latency.total_ns =
        (ws.foldl aggStep zeroStats).latency.total_ns :=
      congrArg (fun r => r.latency.total_ns) he
    rw [hc2, ht2, show reflector_get_stats ws =
        (if 0 < (ws.foldl aggStep zeroStats).latency.count then
          { ws.foldl aggStep zeroStats with latency :=
            { (ws.foldl aggStep zeroStats).latency with avg_ns :=
              ((ws.foldl aggStep zeroStats).latency.total_ns : ℚ) /
                ((ws.foldl aggStep zeroStats).latency.count : ℚ) } }
         else ws.foldl aggStep zeroStats) from rfl]
    split_ifs with hcond
    · rfl
    · rw [lat_avg_const]
      rfl

/-! ### C4: descriptor accounting in the worker send/release phase -/

/-- reflector.h: `BATCH_SIZE` = 64. -/
def BATCH_SIZE : Nat := 64

/-- Descriptor accounting of one worker-loop iteration's send/release phase
(core.c:200–227).  `ds` lists, per received descriptor, whether
`is_ito_packet` accepted it; `sentRet` is the value `send_batch` returns
when the TX list is non-empty.  Components of the result:
* `.1` — rejected descriptors, each passed to `release_batch` with count 1
  (the `else` branch of the classifier, core.c:204–208);
* `.2.1` — the increment of `err_tx_failed` (`sent < 0` branch, core.c:214);
* `.2.2.1` — TX-list descriptors passed to `release_batch` (the
  `release_batch(wctx, pkts_tx, sent)` call runs only when `sent > 0` and
  passes the first `sent` descriptors, core.c:216–225);
* `.2.2.2` — descriptors counted inside the returned sent count. -/
def workerTxAccounting (ds : List Bool) (sentRet : Int) : Nat × Nat × Nat × Nat :=
  let ntx := (ds.filter (fun b => b)).length
  ( (ds.filter (fun b => !b)).length,
    if 0 < ntx ∧ sentRet < 0 then ntx else 0,
    if 0 < ntx ∧ 0 < sentRet then sentRet.toNat else 0,
    if 0 < ntx ∧ 0 ≤ sentRet then sentRet.toNat else 0 )

/-- TX-list descriptors of the iteration never passed to `release_batch`
nor included in a non-negative sent count: with the code's release call
covering exactly the first `sent` descriptors, this is the unaccounted
tail. -/
def workerTxLeaked (ds : List Bool) (sentRet : Int) : Nat :=
  (ds.filter (fun b => b)).length - (workerTxAccounting ds sentRet).2.2.1

/-- **C4 (code bug).**  The worker loop leaks descriptors, contradicting the
claim that the unsent tail is accounted as TX failures and still released:
(i) with one accepted descriptor and `send_batch` returning 0, the
descriptor is neither released, nor counted sent, nor counted as a TX
failure; (ii) with two accepted descriptors and `send_batch` returning -1,
both are counted as TX failures but neither is released; (iii) with two
accepted descriptors and a short return of 1, the second is neither
released nor counted anywhere.  A full-success return (`sentRet` = number
submitted) leaks nothing. -/
theorem C4_send_tail_leaked :
    (workerTxAccounting [true] 0 = (0, 0, 0, 0) ∧ workerTxLeaked [true] 0 = 1) ∧
    (workerTxAccounting [true, true] (-1) = (0, 2, 0, 0) ∧
      workerTxLeaked [true, true] (-1) = 2) ∧
    (workerTxAccounting [true, true] 1 = (0, 0, 1, 1) ∧
      workerTxLeaked [true, true] 1 = 1) ∧
    (∀ ds : List Bool, workerTxLeaked ds ((ds.filter (fun b => b)).length : Int) = 0) := by
  refine ⟨⟨by decide, by decide⟩, ⟨by decide, by decide⟩, ⟨by decide, by decide⟩, ?_⟩
  intro ds
  rcases Nat.eq_zero_or_pos (ds.filter (fun b => b)).length with h0 | hpos
  · simp [workerTxLeaked, workerTxAccounting, h0]
  · simp [workerTxLeaked, workerTxAccounting, hpos, Int.natCast_pos]

/-! ### C8: AF_XDP release_batch — immediate FILL push vs CQ drain -/

/-- The AF_XDP UMEM ring state relevant to buffer recycling: the FILL ring
content and capacity, and the COMPLETION ring content (UMEM addresses, in
order), plus the driver's outstanding-TX counter. -/
structure XdpState where
  fq : List Nat
  fqCap : Nat
  cq : List Nat
  outstanding : Int
deriving DecidableEq, Repr

/-- `xdp_recycle_completed_tx` (xdp_platform.c:455–481): peek up to
`BATCH_SIZE` completed addresses from CQ; `xsk_ring_prod__reserve` on FQ is
all-or-nothing, so the completed addresses move to FQ only when FQ has room
for all of them; CQ entries are released (and `outstanding_tx` decremented)
either way.  Returns the new state and `completed`. -/
def xdp_recycle_completed_tx (s : XdpState) : XdpState × Nat :=
  let completed := min s.cq.length BATCH_SIZE
  if completed = 0 then (s, 0)
  else
    let reserved := if completed ≤ s.fqCap - s.fq.length then completed else 0
    ({ s with
        fq := s.fq ++ s.cq.take reserved,
        cq := s.cq.drop completed,
        outstanding := s.outstanding - completed }, completed)

/-- `xdp_platform_release_batch` (xdp_platform.c:548–582): validate the
count, always drain the completion ring, and only when called with exactly
one descriptor try to push that descriptor's address onto FILL — silently
dropping it if the FILL reserve fails. -/
def xdp_platform_release_batch (s : XdpState) (pkts : List Nat) : XdpState :=
  if BATCH_SIZE < pkts.length then s
  else if pkts.length = 1 then
    if 1 ≤ (xdp_recycle_completed_tx s).1.fqCap -
        (xdp_recycle_completed_tx s).1.fq.length then
      { (xdp_recycle_completed_tx s).1 with
          fq := (xdp_recycle_completed_tx s).1.fq ++ [pkts.headD 0] }
    else (xdp_recycle_completed_tx s).1
  else (xdp_recycle_completed_tx s).1

/-- **C8 (counterexample).**  `release_batch` with a single descriptor does
not always push its address to FILL: with the FILL ring full (capacity 2,
two resident addresses) and an empty COMPLETION ring, the address 7 is
silently dropped — the state is unchanged and 7 never reaches the FILL
ring. -/
theorem C8_release_batch_cex :
    xdp_platform_release_batch ⟨[1, 2], 2, [], 0⟩ [7] = ⟨[1, 2], 2, [], 0⟩ ∧
    ¬ (7 ∈ (xdp_platform_release_batch ⟨[1, 2], 2, [], 0⟩ [7]).fq) := by
  constructor
  · rfl
  · decide

/-- **C8 (amended).**  `release_batch` with more than one descriptor pushes
none of the passed addresses and is exactly the COMPLETION-ring drain; with
exactly one descriptor it pushes that address onto FILL immediately
*provided* the FILL ring has a free slot after the drain (the push is
silently skipped otherwise, see the counterexample). -/
theorem C8_release_batch_paths (s : XdpState) (pkts : List Nat)
    (hle : pkts.length ≤ BATCH_SIZE) :
    (1 < pkts.length →
      xdp_platform_release_batch s pkts = (xdp_recycle_completed_tx s).1) ∧
    (∀ addr : Nat,
      1 ≤ (xdp_recycle_completed_tx s).1.fqCap -
          (xdp_recycle_completed_tx s).1.fq.length →
      xdp_platform_release_batch s [addr] =
        { (xdp_recycle_completed_tx s).1 with
            fq := (xdp_recycle_completed_tx s).1.fq ++ [addr] }) := by
  constructor
  · intro hgt
    rw [xdp_platform_release_batch, if_neg (by omega)]
    rw [if_neg (by omega)]
  · intro addr hroom
    rw [xdp_platform_release_batch, if_neg (by simp [BATCH_SIZE])]
    rw [if_pos (show ([addr] : List Nat).length = 1 from rfl), if_pos hroom]
    rfl

/-- Witness for `C8_release_batch_paths` at a concrete state: draining one
completed address into a FILL ring with spare room, then pushing the
released address. -/
theorem C8_release_batch_paths_witness :
    (([5, 6] : List Nat).length ≤ BATCH_SIZE ∧
      xdp_platform_release_batch ⟨[], 4, [9], 3⟩ [5, 6] =
        (xdp_recycle_completed_tx ⟨[], 4, [9], 3⟩).1) ∧
    xdp_platform_release_batch ⟨[], 4, [9], 3⟩ [7] =
      { (xdp_recycle_completed_tx ⟨[], 4, [9], 3⟩).1 with
          fq := (xdp_recycle_completed_tx ⟨[], 4, [9], 3⟩).1.fq ++ [7] } :=
  ⟨⟨by decide,
    (C8_release_batch_paths ⟨[], 4, [9], 3⟩ [5, 6] (by decide)).1 (by decide)⟩,
   (C8_release_batch_paths ⟨[], 4, [9], 3⟩ [7] (by decide)).2 7 (by decide)⟩

/-! ### C10: AF_XDP double counting of reflected packets -/

/-- The per-descriptor statistics side effect of `xdp_platform_send_batch`
(xdp_platform.c:509–516) on the worker's `(packets_reflected,
bytes_reflected)` pair: one increment and one length per TX descriptor
actually reserved. -/
def xdp_send_stats (st : Nat × Nat) (lens : List Nat) (reserved : Nat) : Nat × Nat :=
  (st.1 + reserved, st.2 + (lens.take reserved).sum)

/-- The worker loop's own accumulation for frames accepted into the TX
batch (core.c:197–199): `stats_batch.packets_reflected++` and
`stats_batch.bytes_reflected += len` per accepted frame. -/
def batch_reflect_accum (lens : List Nat) : Nat × Nat := (lens.length, lens.sum)

/-- The `(packets_reflected, bytes_reflected)` component of
`flush_stats_batch` (core.c:55–102): the local batch counters are added
into the worker's stats. -/
def flush_reflect (st batch : Nat × Nat) : Nat × Nat := (st.1 + batch.1, st.2 + batch.2)

/-- Worker stats after one AF_XDP iteration in which every accepted frame
was reserved on the TX ring (`reserved = num_tx`) and the stats batch was
flushed: the direct in-send increments compose with the flushed batch
counters. -/
def worker_xdp_iter_stats (st : Nat × Nat) (lens : List Nat) : Nat × Nat :=
  flush_reflect (xdp_send_stats st lens lens.length) (batch_reflect_accum lens)

/-- **C10.**  With the AF_XDP backend, every frame accepted into the TX
batch is counted twice: after `send_batch` reserves all submitted
descriptors and the stats batch is flushed, the worker's
`packets_reflected` has grown by twice the number of accepted frames and
`bytes_reflected` by twice their total length. -/
theorem C10_xdp_double_count (st : Nat × Nat) (lens : List Nat) :
    worker_xdp_iter_stats st lens =
      (st.1 + 2 * lens.length, st.2 + 2 * lens.sum) := by
  rw [worker_xdp_iter_stats, xdp_send_stats, batch_reflect_accum, flush_reflect]
  rw [List.take_length]
  simp only [Prod.mk.injEq]
  exact ⟨by omega, by omega⟩

end Reflector
